import Mathlib

set_option maxHeartbeats 1000000
set_option maxRecDepth 4000

namespace RadioAntenna

/-! Shallow embedding of the PicoFirmware hardware-control core:
the 48-bit shift-register protocol of antenna_mode.py, the command handlers
of main.py that drive it, and the rail-voltage calibration and regulation of
voltage_control.py.  Bus state, calibration records and rail state are passed
explicitly; float arithmetic is embedded as rational arithmetic. -/

/-- Python integer bit extraction, the expression (v >> i) & 1 applied to a
possibly negative integer v: floor division by 2 ^ i followed by a
nonnegative remainder mod 2. -/
def pyBit (v : Int) (i : Nat) : Nat :=
  ((v.fdiv ((2 : Int) ^ i)).emod 2).toNat

/-- Input accepted by convert_to_bits in antenna_mode.py: a Python list of
bits, an int, or a string (hex or binary). -/
inductive CpldData where
  | list (l : List Nat)
  | int  (n : Int)
  | str  (s : String)

/-- Value of one hexadecimal digit character; the string has already been
lower-cased, mirroring the source expression data.strip().lower(). -/
def hexVal (c : Char) : Option Nat :=
  if '0' ≤ c ∧ c ≤ '9' then some (c.toNat - '0'.toNat)
  else if 'a' ≤ c ∧ c ≤ 'f' then some (c.toNat - 'a'.toNat + 10)
  else none

/-- The call int(hp, 16) on a digit list; none models the ValueError Python
raises when a character is not a hex digit. -/
def parseHexDigits (cs : List Char) : Option Nat :=
  cs.foldl (fun acc c => acc.bind (fun a => (hexVal c).map (fun d => a * 16 + d))) (some 0)

/-- Left padding of a hex digit list with the character 0 up to 12 digits when
shorter, as in the source line hp = "0"*(12-len(hp))+hp. -/
def hexPad (hp : List Char) : List Char :=
  if hp.length < 12 then List.replicate (12 - hp.length) '0' ++ hp else hp

/-- The LSB-first 48-bit expansion [(val>>i)&1 for i in range(48)]. -/
def bits48 (val : Nat) : List Nat :=
  (List.range 48).map (fun i => (val >>> i) &&& 1)

/-- Python str.strip() on a character list: drop whitespace from both ends. -/
def pyStrip (cs : List Char) : List Char :=
  ((cs.dropWhile (fun c => c.isWhitespace)).reverse.dropWhile
    (fun c => c.isWhitespace)).reverse

/-- Python str.lower() on a character list. -/
def pyLower (cs : List Char) : List Char := cs.map Char.toLower

/-- String branch of convert_to_bits, applied to the character list of the
string after strip() and lower(). -/
def convertStr (cs : List Char) : Except String (List Nat) :=
  if cs.take 2 = ['0', 'x'] then
    match parseHexDigits (hexPad (cs.drop 2)) with
    | some val => .ok (bits48 val)
    | none => .error "invalid literal for int() with base 16"
  else if cs.all (fun c => c == '0' || c == '1') then
    let bp := cs.drop (cs.length - 48)
    let bp := if bp.length < 48 then List.replicate (48 - bp.length) '0' ++ bp else bp
    .ok (bp.reverse.map (fun c => if c = '1' then 1 else 0))
  else .error "Data must be int or hex/bin string"

/-- Function convert_to_bits from antenna_mode.py.  The int branch mirrors
data & ((1<<48)-1), which in Python is the nonnegative remainder mod 2^48
also for negative input. -/
def convert_to_bits : CpldData → Except String (List Nat)
  | .list l =>
    if l.length ≠ 48 ∨ ¬ (l.all (fun b => b == 0 || b == 1)) then
      .error "List input must be 48 elements of 0 or 1."
    else .ok l
  | .int n => .ok (bits48 (n.emod ((2 : Int) ^ 48)).toNat)
  | .str s => convertStr (pyLower (pyStrip s.data))

/-- Modelled from the spec: the CPLD-side shift-register chain behind the pins
SR_SER, SR_SRCLK, SR_RCLK, SR_OE and SR_OUT (the hardware itself is not part
of the repository).  shift is the 48-bit serial shift path, latch the latched
parallel outputs; ser, srclk, rclk and oe are the line levels currently driven
by the firmware. -/
@[ext]
structure Bus where
  shift : List Nat
  latch : List Nat
  ser   : Nat
  srclk : Nat
  rclk  : Nat
  oe    : Nat
  deriving DecidableEq

/-- Pin write SR_SER.value(v): drive the serial-data line. -/
def pinSER (s : Bus) (v : Nat) : Bus := { s with ser := v }

/-- Pin write SR_OE.value(v): drive output enable; no modelled effect on the
chain contents. -/
def pinOE (s : Bus) (v : Nat) : Bus := { s with oe := v }

/-- Modelled from the spec: a rising edge on the shift clock advances the
chain by one position, shifting the current serial-data level in at the far
end while the bit at position 0 falls out. -/
def pinSRCLK (s : Bus) (v : Nat) : Bus :=
  if s.srclk = 0 ∧ v = 1 then { s with shift := s.shift.tail ++ [s.ser], srclk := v }
  else { s with srclk := v }

/-- Modelled from the spec: a rising edge on the latch clock makes the shift
path live on the parallel outputs (write direction) and loads the latched
outputs back into the shift path (read direction); modelled as an exchange of
the two. -/
def pinRCLK (s : Bus) (v : Nat) : Bus :=
  if s.rclk = 0 ∧ v = 1 then { s with shift := s.latch, latch := s.shift, rclk := v }
  else { s with rclk := v }

/-- Pin read SR_OUT.value(): sample the bit at chain position 0. -/
def pinOUT (s : Bus) : Nat := s.shift.headD 0

/-- One iteration SR_SER.value(b); SR_SRCLK.value(1); SR_SRCLK.value(0) of the
serial write loops in antenna_mode.py. -/
def shiftInBit (s : Bus) (b : Nat) : Bus :=
  pinSRCLK (pinSRCLK (pinSER s b) 1) 0

/-- Body of update_shift_registers once the data has been converted: disable
output latch, clear the latch clock, shift all bits out, pulse the latch
clock. -/
def busWrite (s : Bus) (bits : List Nat) : Bus :=
  let s1 := pinRCLK (pinOE s 0) 0
  let s2 := bits.foldl shiftInBit s1
  pinRCLK (pinRCLK s2 1) 0

/-- Function update_shift_registers from antenna_mode.py: convert, shift out,
latch.  The ValueError raised by convert_to_bits is returned as the error
component; the bus is untouched in that case. -/
def update_shift_registers (s : Bus) (data : CpldData) : Bus × Option String :=
  match convert_to_bits data with
  | .error e => (s, some e)
  | .ok bits => (busWrite s bits, none)

/-- Sampling loop of read_shift_registers: append SR_OUT.value() to the
collected bits, then pulse the shift clock, n times. -/
def readLoop : Nat → Bus → List Nat × Bus
  | 0, s => ([], s)
  | n + 1, s =>
    let b := pinOUT s
    let s1 := pinSRCLK (pinSRCLK s 1) 0
    (b :: (readLoop n s1).1, (readLoop n s1).2)

/-- Function read_shift_registers from antenna_mode.py: pulse the latch clock,
sample 48 bits, then restore the register by shifting the captured bits back
in and latching them again. -/
def read_shift_registers (s : Bus) : List Nat × Bus :=
  let s1 := pinRCLK (pinRCLK s 1) 0
  let bits := (readLoop 48 s1).1
  let s2 := (readLoop 48 s1).2
  let s3 := pinRCLK (pinOE s2 0) 0
  let s4 := bits.foldl shiftInBit s3
  (bits, pinRCLK (pinRCLK s4 1) 0)

/-- Well-formed bus state: 48 bits in the shift path and in the latch, both
clock lines low, and every stored value a single bit. -/
def WF (s : Bus) : Prop :=
  s.shift.length = 48 ∧ s.latch.length = 48 ∧ s.srclk = 0 ∧ s.rclk = 0 ∧
    (∀ b ∈ s.shift, b ≤ 1) ∧ (∀ b ∈ s.latch, b ≤ 1)

instance (s : Bus) : Decidable (WF s) := by
  unfold WF; infer_instance

/-- Signal names from PIN_TO_SIGNAL, structured: AZ n stands for AZ_nn,
PE3 for PE_3P3V_EN, PE8 for PE_8P0V_EN, and dgnd, sens, sda, scl for the
signals DGND, SENS_OUT, IF_I2C1_SDA, IF_I2C1_SCL that belong to no field. -/
inductive Signal where
  | AZ (n : Nat) | EL (n : Nat) | FM (n : Nat) | AT (n : Nat)
  | PE3 | PE8 | SS (n : Nat) | dgnd | sens | sda | scl
  deriving DecidableEq

/-- The second _raw assignment in antenna_mode.py: shift-register output order
as physical pin numbers, with pin 8 (the sensor output) appended. -/
def rawPins : List Nat :=
  [3, 34, 35, 18, 1, 2, 37, 20, 38, 21, 4, 39, 22, 5, 23, 6, 40, 24, 7,
   41, 25, 42, 9, 26, 43, 10, 27, 11, 44, 28, 12, 45, 29, 13, 46, 30, 14, 47, 15,
   31, 48, 16, 32, 49, 17, 33, 50,
   8]

/-- STAGE_TO_PIN = _raw[::-1] in antenna_mode.py. -/
def STAGE_TO_PIN : List Nat := rawPins.reverse

/-- Table PIN_TO_SIGNAL from antenna_mode.py. -/
def PIN_TO_SIGNAL (p : Nat) : Signal :=
  match p with
  | 1 => .SS 4 | 2 => .SS 2 | 3 => .SS 1 | 4 => .AT 2 | 5 => .AT 1
  | 6 => .dgnd | 7 => .dgnd | 8 => .sens
  | 9 => .AZ 23 | 10 => .AZ 21 | 11 => .AZ 20 | 12 => .AZ 18 | 13 => .dgnd
  | 14 => .AZ 16 | 15 => .AZ 15 | 16 => .AZ 13 | 17 => .AZ 12 | 18 => .SS 3
  | 19 => .sda | 20 => .SS 0 | 21 => .FM 3 | 22 => .AT 0 | 23 => .FM 0
  | 24 => .dgnd | 25 => .EL 0 | 26 => .AZ 22 | 27 => .AZ 9 | 28 => .AZ 19
  | 29 => .AZ 6 | 30 => .AZ 17 | 31 => .AZ 4 | 32 => .AZ 14 | 33 => .AZ 1
  | 34 => .PE8 | 35 => .PE3 | 36 => .scl | 37 => .dgnd | 38 => .FM 2
  | 39 => .FM 1 | 40 => .dgnd | 41 => .EL 1 | 42 => .AZ 11 | 43 => .AZ 10
  | 44 => .AZ 8 | 45 => .AZ 7 | 46 => .dgnd | 47 => .AZ 5 | 48 => .AZ 3
  | 49 => .AZ 2 | 50 => .AZ 0
  | _ => .dgnd

/-- STAGE_TO_SIGNAL: composition of the two tables. -/
def STAGE_TO_SIGNAL : List Signal := STAGE_TO_PIN.map PIN_TO_SIGNAL

/-- The six functional blocks overlaid on the 48 stages. -/
inductive Field where
  | AZ | EL | FM | AT | PE | SS
  deriving DecidableEq, Fintype

/-- Membership test used by the filters building the stage groups (the
startswith test on the field name in the source). -/
def Signal.inField : Signal → Field → Bool
  | .AZ _, .AZ => true
  | .EL _, .EL => true
  | .FM _, .FM => true
  | .AT _, .AT => true
  | .PE3, .PE => true
  | .PE8, .PE => true
  | .SS _, .SS => true
  | _, _ => false

/-- Sort key of a stage group entry: the bit index parsed from the signal name
suffix; for the power-enable field the lexicographic order of the two names
puts PE_3P3V_EN before PE_8P0V_EN. -/
def Signal.bitIndex : Signal → Nat
  | .AZ n => n | .EL n => n | .FM n => n | .AT n => n | .SS n => n
  | .PE3 => 0 | .PE8 => 1
  | _ => 0

/-- Stable ascending insertion of a stage into a list sorted by key. -/
def insertByKey (key : Nat → Nat) (x : Nat) : List Nat → List Nat
  | [] => [x]
  | y :: ys => if key x ≤ key y then x :: y :: ys else y :: insertByKey key x ys

/-- The Python builtin sorted(l, key=key); all keys used here are pairwise
distinct, so any correct sort produces the same list. -/
def sortByKey (key : Nat → Nat) (l : List Nat) : List Nat :=
  l.foldr (insertByKey key) []

/-- Key of a stage: bit index of the signal it carries. -/
def stageKey (st : Nat) : Nat := (STAGE_TO_SIGNAL.getD st .dgnd).bitIndex

/-- Stage group of one field: the stages whose signal belongs to the field,
sorted ascending by bit index (AZ_STAGES ... SS_STAGES in antenna_mode.py). -/
def fieldStages (f : Field) : List Nat :=
  sortByKey stageKey
    ((List.range 48).filter (fun i => (STAGE_TO_SIGNAL.getD i .dgnd).inField f))

/-- Number of value bits of a field. -/
def fieldWidth (f : Field) : Nat := (fieldStages f).length

/-- The overlay loop for bn, st in enumerate(stages): pat[st] = (val>>bn)&1 of
build_cpld_pattern, with the enumeration counter starting at k. -/
def applyFieldAux (pat : List Nat) (stages : List Nat) (val : Int) (k : Nat) : List Nat :=
  match stages with
  | [] => pat
  | st :: rest => applyFieldAux (pat.set st (pyBit val k)) rest val (k + 1)

/-- Overlay of one field value onto the snapshot. -/
def applyField (pat stages : List Nat) (val : Int) : List Nat :=
  applyFieldAux pat stages val 0

/-- One optional block of build_cpld_pattern: overlay only when the field was
specified. -/
def applyOpt (pat stages : List Nat) : Option Int → List Nat
  | none => pat
  | some v => applyField pat stages v

/-- Pure part of build_cpld_pattern: overlay every specified field onto the
snapshot, in the source order AZ, EL, FM, AT, SS, PE. -/
def buildPure (pat : List Nat) (az el fm att pe ss : Option Int) : List Nat :=
  applyOpt
    (applyOpt
      (applyOpt
        (applyOpt
          (applyOpt
            (applyOpt pat (fieldStages .AZ) az)
            (fieldStages .EL) el)
          (fieldStages .FM) fm)
        (fieldStages .AT) att)
      (fieldStages .SS) ss)
    (fieldStages .PE) pe

/-- Function build_cpld_pattern from antenna_mode.py: snapshot the hardware
state with a bus read, then overlay the specified fields. -/
def build_cpld_pattern (s : Bus) (az el fm att pe ss : Option Int) : List Nat × Bus :=
  let pat := (read_shift_registers s).1
  (buildPure pat az el fm att pe ss, (read_shift_registers s).2)

/-- The reassembly sum(bits[st] << i for i, st in enumerate(stages)), with the
enumeration counter starting at k. -/
def fieldValAux (bits : List Nat) : List Nat → Nat → Nat
  | [], _ => 0
  | st :: rest, k => (bits.getD st 0) <<< k + fieldValAux bits rest (k + 1)

/-- Integer value of a field inside a 48-bit vector. -/
def fieldVal (bits stages : List Nat) : Nat := fieldValAux bits stages 0

/-- The read helpers read_az ... read_ss of antenna_mode.py: reassemble one
field value from a fresh bus read. -/
def readField (s : Bus) (f : Field) : Nat × Bus :=
  let bits := (read_shift_registers s).1
  (fieldVal bits (fieldStages f), (read_shift_registers s).2)

/-- Handler command_setaz from main.py, its argument already parsed by
int(value, 0).  Note that the source performs no range check on the azimuth
value: it re-reads the other five fields, builds and writes.  The second
component is the reported error, none on success; the returned bus is the
hardware state afterwards. -/
def command_setaz (s : Bus) (az : Int) : Bus × Option String :=
  let el := (readField s .EL).1
  let s1 := (readField s .EL).2
  let fm := (readField s1 .FM).1
  let s2 := (readField s1 .FM).2
  let att := (readField s2 .AT).1
  let s3 := (readField s2 .AT).2
  let pe := (readField s3 .PE).1
  let s4 := (readField s3 .PE).2
  let ss := (readField s4 .SS).1
  let s5 := (readField s4 .SS).2
  let pat := (build_cpld_pattern s5 (some az) (some (el : Int)) (some (fm : Int))
    (some (att : Int)) (some (pe : Int)) (some (ss : Int))).1
  let s6 := (build_cpld_pattern s5 (some az) (some (el : Int)) (some (fm : Int))
    (some (att : Int)) (some (pe : Int)) (some (ss : Int))).2
  update_shift_registers s6 (.list pat)

/-- Handler command_setel from main.py: range check 0 <= el < 4, re-read the
other fields, build and write.  The raised ValueError is caught by the
handler, so on a range failure the bus is returned unchanged together with
the error message. -/
def command_setel (s : Bus) (el : Int) : Bus × Option String :=
  if ¬ (0 ≤ el ∧ el < 4) then (s, some "Elevation must be 0-3")
  else
    let az := (readField s .AZ).1
    let s1 := (readField s .AZ).2
    let fm := (readField s1 .FM).1
    let s2 := (readField s1 .FM).2
    let att := (readField s2 .AT).1
    let s3 := (readField s2 .AT).2
    let pe := (readField s3 .PE).1
    let s4 := (readField s3 .PE).2
    let ss := (readField s4 .SS).1
    let s5 := (readField s4 .SS).2
    let pat := (build_cpld_pattern s5 (some (az : Int)) (some el) (some (fm : Int))
      (some (att : Int)) (some (pe : Int)) (some (ss : Int))).1
    let s6 := (build_cpld_pattern s5 (some (az : Int)) (some el) (some (fm : Int))
      (some (att : Int)) (some (pe : Int)) (some (ss : Int))).2
    update_shift_registers s6 (.list pat)

/-- Handler command_setfm from main.py: range check 0 <= fm < 16. -/
def command_setfm (s : Bus) (fm : Int) : Bus × Option String :=
  if ¬ (0 ≤ fm ∧ fm < 16) then (s, some "FEM mode must be 0-15")
  else
    let az := (readField s .AZ).1
    let s1 := (readField s .AZ).2
    let el := (readField s1 .EL).1
    let s2 := (readField s1 .EL).2
    let att := (readField s2 .AT).1
    let s3 := (readField s2 .AT).2
    let pe := (readField s3 .PE).1
    let s4 := (readField s3 .PE).2
    let ss := (readField s4 .SS).1
    let s5 := (readField s4 .SS).2
    let pat := (build_cpld_pattern s5 (some (az : Int)) (some (el : Int)) (some fm)
      (some (att : Int)) (some (pe : Int)) (some (ss : Int))).1
    let s6 := (build_cpld_pattern s5 (some (az : Int)) (some (el : Int)) (some fm)
      (some (att : Int)) (some (pe : Int)) (some (ss : Int))).2
    update_shift_registers s6 (.list pat)

/-- Handler command_setat from main.py: range check 0 <= at < 8. -/
def command_setat (s : Bus) (att : Int) : Bus × Option String :=
  if ¬ (0 ≤ att ∧ att < 8) then (s, some "Antenna test must be 0-7")
  else
    let az := (readField s .AZ).1
    let s1 := (readField s .AZ).2
    let el := (readField s1 .EL).1
    let s2 := (readField s1 .EL).2
    let fm := (readField s2 .FM).1
    let s3 := (readField s2 .FM).2
    let pe := (readField s3 .PE).1
    let s4 := (readField s3 .PE).2
    let ss := (readField s4 .SS).1
    let s5 := (readField s4 .SS).2
    let pat := (build_cpld_pattern s5 (some (az : Int)) (some (el : Int)) (some (fm : Int))
      (some att) (some (pe : Int)) (some (ss : Int))).1
    let s6 := (build_cpld_pattern s5 (some (az : Int)) (some (el : Int)) (some (fm : Int))
      (some att) (some (pe : Int)) (some (ss : Int))).2
    update_shift_registers s6 (.list pat)

/-- Handler command_setpe from main.py: range check 0 <= pe < 4. -/
def command_setpe (s : Bus) (pe : Int) : Bus × Option String :=
  if ¬ (0 ≤ pe ∧ pe < 4) then (s, some "Power enable must be 0-3")
  else
    let az := (readField s .AZ).1
    let s1 := (readField s .AZ).2
    let el := (readField s1 .EL).1
    let s2 := (readField s1 .EL).2
    let fm := (readField s2 .FM).1
    let s3 := (readField s2 .FM).2
    let att := (readField s3 .AT).1
    let s4 := (readField s3 .AT).2
    let ss := (readField s4 .SS).1
    let s5 := (readField s4 .SS).2
    let pat := (build_cpld_pattern s5 (some (az : Int)) (some (el : Int)) (some (fm : Int))
      (some (att : Int)) (some pe) (some (ss : Int))).1
    let s6 := (build_cpld_pattern s5 (some (az : Int)) (some (el : Int)) (some (fm : Int))
      (some (att : Int)) (some pe) (some (ss : Int))).2
    update_shift_registers s6 (.list pat)

/-- Handler command_setss from main.py: range check 0 <= ss < 32. -/
def command_setss (s : Bus) (ss : Int) : Bus × Option String :=
  if ¬ (0 ≤ ss ∧ ss < 32) then (s, some "Sensor select must be 0-31")
  else
    let az := (readField s .AZ).1
    let s1 := (readField s .AZ).2
    let el := (readField s1 .EL).1
    let s2 := (readField s1 .EL).2
    let fm := (readField s2 .FM).1
    let s3 := (readField s2 .FM).2
    let att := (readField s3 .AT).1
    let s4 := (readField s3 .AT).2
    let pe := (readField s4 .PE).1
    let s5 := (readField s4 .PE).2
    let pat := (build_cpld_pattern s5 (some (az : Int)) (some (el : Int)) (some (fm : Int))
      (some (att : Int)) (some (pe : Int)) (some ss)).1
    let s6 := (build_cpld_pattern s5 (some (az : Int)) (some (el : Int)) (some (fm : Int))
      (some (att : Int)) (some (pe : Int)) (some ss)).2
    update_shift_registers s6 (.list pat)

/-- Single-field use of build_cpld_pattern: only the named field specified. -/
def buildSingle (s : Bus) (f : Field) (v : Int) : List Nat × Bus :=
  match f with
  | .AZ => build_cpld_pattern s (some v) none none none none none
  | .EL => build_cpld_pattern s none (some v) none none none none
  | .FM => build_cpld_pattern s none none (some v) none none none
  | .AT => build_cpld_pattern s none none none (some v) none none
  | .PE => build_cpld_pattern s none none none none (some v) none
  | .SS => build_cpld_pattern s none none none none none (some v)

/-- The buildPattern-then-write idiom of the spec for a single field: build
the pattern with one override and write it back. -/
def writeField (s : Bus) (f : Field) (v : Int) : Bus × Option String :=
  update_shift_registers (buildSingle s f v).2 (.list (buildSingle s f v).1)

/-- The two regulated rails of voltage_control.py. -/
inductive Channel where
  | fixed | adjustable
  deriving DecidableEq

/-- ADC constants of voltage_control.py, as exact rationals. -/
def _VREF : ℚ := 33 / 10

def _NOMINAL_DIVIDER : ℚ := 37 / 10

def _ADC_MAX : ℚ := 65535

def _DEFAULT_SLOPE : ℚ := _VREF * _NOMINAL_DIVIDER / _ADC_MAX

/-- The per-channel calibration store _calibration: a (slope, intercept) pair
for each rail. -/
structure Calibration where
  fixedCal : ℚ × ℚ
  adjCal   : ℚ × ℚ
  deriving DecidableEq

def Calibration.get : Calibration → Channel → ℚ × ℚ
  | c, .fixed => c.fixedCal
  | c, .adjustable => c.adjCal

def Calibration.set : Calibration → Channel → ℚ × ℚ → Calibration
  | c, .fixed, v => { c with fixedCal := v }
  | c, .adjustable, v => { c with adjCal := v }

/-- Initial _calibration contents: nominal default slope, zero intercept. -/
def defaultCalibration : Calibration :=
  ⟨(_DEFAULT_SLOPE, 0), (_DEFAULT_SLOPE, 0)⟩

/-- In-memory and persisted calibration records.  The JSON file written by
save_calibration is modelled as a second copy of the record; save copies the
in-memory record to it. -/
structure CalState where
  mem  : Calibration
  disk : Calibration
  deriving DecidableEq

/-- Function read_voltage from voltage_control.py evaluated at a given raw ADC
count: slope * count + intercept for the channel. -/
def read_voltage_at (cal : Calibration) (ch : Channel) (count : ℚ) : ℚ :=
  (cal.get ch).1 * count + (cal.get ch).2

/-- Function calibrate_channel from voltage_control.py.  The settling polls
and the operator-entered voltages are abstracted into the four parameters:
raw0 and v0 are the settled raw count and the measured voltage at wiper 0,
raw1 and v1 the same at wiper 255.  The two pairs are first ordered by
ascending raw count; on the identical-raw-counts ValueError the store (memory
and disk) is returned unchanged, because the source raises before assigning
or saving. -/
def calibrate_channel (st : CalState) (ch : Channel) (raw0 : Int) (v0 : ℚ)
    (raw1 : Int) (v1 : ℚ) : CalState × Option String :=
  let rawLow  : Int := if raw1 < raw0 then raw1 else raw0
  let rawHigh : Int := if raw1 < raw0 then raw0 else raw1
  let vLow  : ℚ := if raw1 < raw0 then v1 else v0
  let vHigh : ℚ := if raw1 < raw0 then v0 else v1
  if rawHigh = rawLow then (st, some "Calibration error: identical raw counts.")
  else
    let slope := (vHigh - vLow) / ((rawHigh : ℚ) - (rawLow : ℚ))
    let intercept := vLow - slope * (rawLow : ℚ)
    let mem1 := st.mem.set ch (slope, intercept)
    ({ mem := mem1, disk := mem1 }, none)

/-- The (slope, intercept) pair a successful calibrate_channel run stores:
order the two endpoint pairs by ascending raw count and fit the unique line
through them. -/
def calibFit (raw0 : Int) (v0 : ℚ) (raw1 : Int) (v1 : ℚ) : ℚ × ℚ :=
  let rawLow  : Int := if raw1 < raw0 then raw1 else raw0
  let rawHigh : Int := if raw1 < raw0 then raw0 else raw1
  let vLow  : ℚ := if raw1 < raw0 then v1 else v0
  let vHigh : ℚ := if raw1 < raw0 then v0 else v1
  ((vHigh - vLow) / ((rawHigh : ℚ) - (rawLow : ℚ)),
    vLow - (vHigh - vLow) / ((rawHigh : ℚ) - (rawLow : ℚ)) * (rawLow : ℚ))

/-- Python abs() on a rational, written as a case split so that it evaluates
by kernel reduction. -/
def pyAbs (q : ℚ) : ℚ := if q < 0 then -q else q

/-- The mutable rail-control state of main.py: the dicts filtered_voltages and
current_wipers, one entry per channel. -/
structure VCState where
  filteredFixed : ℚ
  filteredAdj   : ℚ
  wiperFixed    : Int
  wiperAdj      : Int
  deriving DecidableEq

def VCState.filtered : VCState → Channel → ℚ
  | st, .fixed => st.filteredFixed
  | st, .adjustable => st.filteredAdj

def VCState.setFiltered : VCState → Channel → ℚ → VCState
  | st, .fixed, v => { st with filteredFixed := v }
  | st, .adjustable, v => { st with filteredAdj := v }

def VCState.wiper : VCState → Channel → Int
  | st, .fixed => st.wiperFixed
  | st, .adjustable => st.wiperAdj

def VCState.setWiper : VCState → Channel → Int → VCState
  | st, .fixed, v => { st with wiperFixed := v }
  | st, .adjustable, v => { st with wiperAdj := v }

/-- The for ch, tgt in target_voltages.items() loop of voltage_control_step.
alpha is FILTER_ALPHA (imported from config, whose source copy does not define
it; modelled from the spec as an abstract smoothing constant).  env ch is the
outcome of read_voltage(ch); targets ch the target_voltages entry; chans the
dict iteration order.  The result carries the state as mutated so far, the
set_wiper(pot, value) calls performed, and the first uncaught exception if
any, which aborts the loop and leaves the remaining channels unprocessed. -/
def stepLoop (alpha : ℚ) (env : Channel → Except String ℚ) (targets : Channel → ℚ) :
    List Channel → VCState → List (Nat × Int) → VCState × List (Nat × Int) × Option String
  | [], st, ws => (st, ws, none)
  | ch :: rest, st, ws =>
    match env ch with
    | .error e => (st, ws, some e)
    | .ok raw =>
      let st1 := st.setFiltered ch (alpha * raw + (1 - alpha) * st.filtered ch)
      let diff := st1.filtered ch - targets ch
      if pyAbs diff ≥ 9 / 1000 then
        let step : Int := if diff > 0 then 1 else -1
        let newW := max 0 (min 255 (st1.wiper ch + step))
        if newW ≠ st1.wiper ch then
          let st2 := st1.setWiper ch newW
          let pot : Nat := if ch = .fixed then 1 else 0
          stepLoop alpha env targets rest st2 (ws ++ [(pot, newW)])
        else stepLoop alpha env targets rest st1 ws
      else stepLoop alpha env targets rest st1 ws

/-- Function voltage_control_step from voltage_control.py: skip everything
while calibrating, otherwise run the per-channel regulation loop. -/
def voltage_control_step (alpha : ℚ) (env : Channel → Except String ℚ)
    (targets : Channel → ℚ) (chans : List Channel) (st : VCState)
    (calibrating : Bool) : VCState × List (Nat × Int) × Option String :=
  if calibrating then (st, [], none)
  else stepLoop alpha env targets chans st []

/-- The wiper value after one regulation pass over a single rail, written as
one closed expression: the exponentially filtered estimate, the dead-band
test, and the clamped single step. -/
def railWiperAfter (alpha raw tgt fprev : ℚ) (w : Int) : Int :=
  let f := alpha * raw + (1 - alpha) * fprev
  let diff := f - tgt
  if pyAbs diff ≥ 9 / 1000 then max 0 (min 255 (w + (if diff > 0 then 1 else -1))) else w

/-- Command-level state touched by command_calibrate in main.py: the
calibration store and the global calibrating flag. -/
structure SysState where
  cal : CalState
  calibrating : Bool
  deriving DecidableEq

/-- Handler command_calibrate from main.py for a valid single channel: set the
global calibrating flag, run calibrate_channel, and clear the flag afterwards.
There is no try/finally, so when calibrate_channel raises, the exception
propagates to the command listener and the flag stays set. -/
def command_calibrate (sys : SysState) (ch : Channel) (raw0 : Int) (v0 : ℚ)
    (raw1 : Int) (v1 : ℚ) : SysState × Option String :=
  let sys1 : SysState := { sys with calibrating := true }
  match calibrate_channel sys1.cal ch raw0 v0 raw1 v1 with
  | (cal1, none) => ({ cal := cal1, calibrating := false }, none)
  | (cal1, some e) => ({ sys1 with cal := cal1 }, some e)

/-- All-zero well-formed bus state, used for concrete checks. -/
def bus0 : Bus := ⟨List.replicate 48 0, List.replicate 48 0, 0, 0, 0, 0⟩

/-- A bus whose latch holds an arbitrary 48-bit pattern. -/
def busW : Bus := ⟨List.replicate 48 0, bits48 12345678901, 0, 0, 0, 0⟩

/-- Rail state with both wipers at 100 and zero filtered estimates. -/
def vc100 : VCState := ⟨0, 0, 100, 100⟩

/-- Rail state with the fixed wiper saturated at 255. -/
def vc255 : VCState := ⟨0, 0, 255, 0⟩

/-- ADC environment returning a constant reading on every channel. -/
def envConst (q : ℚ) : Channel → Except String ℚ := fun _ => .ok q

/-- ADC environment where the fixed-channel read raises. -/
def envFixedFails : Channel → Except String ℚ :=
  fun ch => if ch = .fixed then .error "ADC read failed" else .ok 5

/-- Calibration state holding the nominal defaults in memory and on disk. -/
def calState0 : CalState := ⟨defaultCalibration, defaultCalibration⟩

/-- The override map giving field f the value v and leaving the rest
unspecified. -/
def singleOpt (f : Field) (v : Int) : Field → Option Int :=
  fun g => if g = f then some v else none

/-! Bus protocol lemmas. -/

theorem shiftInBit_eq (s : Bus) (b : Nat) (h : s.srclk = 0) :
    shiftInBit s b = { s with shift := s.shift.tail ++ [b], ser := b } := by
  simp [shiftInBit, pinSER, pinSRCLK, h]

theorem pulseSRCLK_eq (s : Bus) (h : s.srclk = 0) :
    pinSRCLK (pinSRCLK s 1) 0 = { s with shift := s.shift.tail ++ [s.ser] } := by
  simp [pinSRCLK, h]

theorem pinRCLK_zero (s : Bus) : pinRCLK s 0 = { s with rclk := 0 } := by
  simp [pinRCLK]

theorem pulseRCLK_eq (s : Bus) (h : s.rclk = 0) :
    pinRCLK (pinRCLK s 1) 0 = { s with shift := s.latch, latch := s.shift } := by
  simp [pinRCLK, h]


theorem getLastD_cons_eq {α : Type} (l : List α) (b a : α) :
    (b :: l).getLastD a = l.getLastD b := by
  cases l <;> rfl

theorem foldl_shiftInBit (bs : List Nat) : ∀ (s : Bus), s.srclk = 0 → s.shift ≠ [] →
    bs.foldl shiftInBit s =
      { s with shift := (s.shift ++ bs).drop bs.length, ser := bs.getLastD s.ser } := by
  induction bs with
  | nil => intro s _ _; simp
  | cons b rest ih =>
    intro s h hne
    rcases hx : s.shift with _ | ⟨hd, tl⟩
    · exact absurd hx hne
    · rw [List.foldl_cons, shiftInBit_eq s b h,
        ih _ (by simp [h]) (by simp)]
      rw [getLastD_cons_eq]
      ext <;> simp [hx]

theorem busWrite_eq (s : Bus) (bits : List Nat) (h0 : s.srclk = 0) (h1 : s.rclk = 0)
    (h2 : s.shift.length = 48) (h3 : bits.length = 48) :
    busWrite s bits =
      { s with shift := s.latch, latch := bits, ser := bits.getLastD s.ser, oe := 0 } := by
  have hne : s.shift ≠ [] := by
    intro hz; rw [hz] at h2; simp at h2
  have e1 : pinRCLK (pinOE s 0) 0 = { s with oe := 0, rclk := 0 } := by
    simp [pinOE, pinRCLK]
  have e2 := foldl_shiftInBit bits ({ s with oe := 0, rclk := 0 } : Bus) h0 hne
  have e3 : (s.shift ++ bits).drop bits.length = bits := by
    rw [h3, ← h2]; exact List.drop_left _ _
  rw [busWrite, e1, e2]
  simp only [e3]
  rw [pulseRCLK_eq _ rfl]
  ext <;> simp [h1]

theorem readLoop_spec (n : Nat) : ∀ (s : Bus), s.srclk = 0 → n ≤ s.shift.length →
    (readLoop n s).1 = s.shift.take n ∧
    (readLoop n s).2 = { s with shift := s.shift.drop n ++ List.replicate n s.ser } := by
  induction n with
  | zero => intro s _ _; constructor <;> simp [readLoop]
  | succ n ih =>
    intro s h hn
    rcases hx : s.shift with _ | ⟨hd, tl⟩
    · rw [hx] at hn; simp at hn
    · have hlen : n ≤ tl.length := by
        rw [hx] at hn; simpa using hn
      have h1 : (pinSRCLK (pinSRCLK s 1) 0) = { s with shift := tl ++ [s.ser] } := by
        rw [pulseSRCLK_eq s h, hx]; rfl
      have h2 := ih ({ s with shift := tl ++ [s.ser] } : Bus) h (by simp; omega)
      rw [readLoop]
      simp only [h1]
      constructor
      · simp only [h2.1]
        simp [pinOUT, hx, List.take_append_of_le_length hlen]
      · simp only [h2.2]
        ext <;> simp [hx, List.drop_append_of_le_length hlen, List.replicate_succ,
          List.append_assoc]

theorem read_shift_registers_spec (s : Bus) (h0 : s.srclk = 0) (h1 : s.rclk = 0)
    (h2 : s.shift.length = 48) (h3 : s.latch.length = 48) :
    read_shift_registers s = (s.latch, { s with oe := 0, ser := s.latch.getLastD s.ser }) := by
  have e0 : pinRCLK (pinRCLK s 1) 0 = { s with shift := s.latch, latch := s.shift } :=
    pulseRCLK_eq s h1
  have hloop := readLoop_spec 48 ({ s with shift := s.latch, latch := s.shift } : Bus) h0
    (by simpa using le_of_eq h3.symm)
  have htake : s.latch.take 48 = s.latch := by
    rw [← h3]; exact List.take_length s.latch
  have hdrop : s.latch.drop 48 = ([] : List Nat) := by
    rw [← h3]; exact List.drop_length s.latch
  have hb : (readLoop 48 ({ s with shift := s.latch, latch := s.shift } : Bus)).1 = s.latch := by
    rw [hloop.1]; simpa using htake
  have hs2 : (readLoop 48 ({ s with shift := s.latch, latch := s.shift } : Bus)).2
      = { s with shift := List.replicate 48 s.ser, latch := s.shift } := by
    rw [hloop.2]; ext <;> simp [hdrop]
  have e1 : pinRCLK (pinOE ({ s with shift := List.replicate 48 s.ser, latch := s.shift } : Bus) 0) 0
      = { s with shift := List.replicate 48 s.ser, latch := s.shift, rclk := 0, oe := 0 } := by
    simp [pinOE, pinRCLK]
  have e3 : ((List.replicate 48 s.ser : List Nat) ++ s.latch).drop s.latch.length = s.latch := by
    rw [h3, show (48 : Nat) = (List.replicate 48 s.ser).length by simp]
    exact List.drop_left _ _
  have e4 : List.foldl shiftInBit
      ({ s with shift := List.replicate 48 s.ser, latch := s.shift, rclk := 0, oe := 0 } : Bus)
      s.latch
      = { s with
            shift := s.latch, latch := s.shift, ser := s.latch.getLastD s.ser,
            rclk := 0, oe := 0 } := by
    rw [foldl_shiftInBit s.latch
      ({ s with
          shift := List.replicate 48 s.ser, latch := s.shift,
          rclk := 0, oe := 0 } : Bus) h0 (by simp)]
    ext1
    · exact e3
    · rfl
    · rfl
    · rfl
    · rfl
    · rfl
  have e5 : pinRCLK (pinRCLK ({ s with
        shift := s.latch, latch := s.shift,
        ser := s.latch.getLastD s.ser, rclk := 0, oe := 0 } : Bus) 1) 0
      = { s with oe := 0, ser := s.latch.getLastD s.ser } := by
    rw [pulseRCLK_eq _ rfl]
    ext <;> simp [h1]
  rw [read_shift_registers]
  simp only [e0, hb, hs2, e1, e4, e5]

/-! Pattern overlay lemmas. -/

theorem pyBit_le_one (v : Int) (i : Nat) : pyBit v i ≤ 1 := by
  unfold pyBit
  have h1 : 0 ≤ (v.fdiv ((2 : Int) ^ i)).emod 2 := Int.emod_nonneg _ (by norm_num)
  have h2 : (v.fdiv ((2 : Int) ^ i)).emod 2 < 2 := Int.emod_lt_of_pos _ (by norm_num)
  omega

theorem pyBit_natCast (y i : Nat) : pyBit (y : Int) i = y / 2 ^ i % 2 := by
  unfold pyBit
  have hp : ((2 : Int) ^ i) = ((2 ^ i : Nat) : Int) := by push_cast; ring
  have h1 : ((y : Int)).fdiv ((2 : Int) ^ i) = ((y / 2 ^ i : Nat) : Int) := by
    rw [hp, Int.fdiv_eq_tdiv (by positivity) (by positivity), ← Int.ofNat_tdiv]
  rw [h1]
  have h2 : ((y / 2 ^ i : Nat) : Int).emod 2 = ((y / 2 ^ i % 2 : Nat) : Int) := by
    push_cast
    rfl
  rw [h2]
  exact Int.toNat_natCast _

theorem getD_set_ne (l : List Nat) (i j v : Nat) (h : i ≠ j) :
    (l.set i v).getD j 0 = l.getD j 0 := by
  rw [List.getD_eq_getElem?_getD, List.getD_eq_getElem?_getD, List.getElem?_set_ne h]

theorem getD_set_eq (l : List Nat) (i v : Nat) (h : i < l.length) :
    (l.set i v).getD i 0 = v := by
  rw [List.getD_eq_getElem?_getD, List.getElem?_set_eq_of_lt v h]
  rfl

theorem applyFieldAux_length (stages : List Nat) : ∀ (pat : List Nat) (val : Int) (k : Nat),
    (applyFieldAux pat stages val k).length = pat.length := by
  induction stages with
  | nil => intro pat val k; rfl
  | cons st rest ih =>
    intro pat val k
    rw [applyFieldAux, ih]
    exact List.length_set pat st _

theorem applyFieldAux_getD_notmem (stages : List Nat) : ∀ (pat : List Nat) (val : Int)
    (k st : Nat), st ∉ stages →
    (applyFieldAux pat stages val k).getD st 0 = pat.getD st 0 := by
  induction stages with
  | nil => intro pat val k st _; rfl
  | cons st0 rest ih =>
    intro pat val k st h
    have h1 : st ≠ st0 ∧ st ∉ rest := by
      constructor
      · intro he; exact h (he ▸ List.mem_cons_self st0 rest)
      · intro hm; exact h (List.mem_cons_of_mem st0 hm)
    rw [applyFieldAux, ih _ _ _ _ h1.2, getD_set_ne _ _ _ _ (Ne.symm h1.1)]

theorem applyFieldAux_getD_mem (stages : List Nat) : ∀ (pat : List Nat) (val : Int) (k j : Nat)
    (hj : j < stages.length), stages.Nodup → stages.get ⟨j, hj⟩ < pat.length →
    (applyFieldAux pat stages val k).getD (stages.get ⟨j, hj⟩) 0 = pyBit val (k + j) := by
  induction stages with
  | nil => intro pat val k j hj; intro _ _; exact absurd hj (by simp)
  | cons st rest ih =>
    intro pat val k j hj hnd hlt
    match j with
    | 0 =>
      have hst : st ∉ rest := (List.nodup_cons.mp hnd).1
      rw [applyFieldAux]
      rw [show (st :: rest).get ⟨0, hj⟩ = st from rfl] at hlt ⊢
      rw [applyFieldAux_getD_notmem rest _ _ _ _ hst, getD_set_eq _ _ _ hlt]
      simp
    | j + 1 =>
      have hj1 : j < rest.length := by simpa using Nat.lt_of_succ_lt_succ hj
      rw [applyFieldAux]
      rw [show (st :: rest).get ⟨j + 1, hj⟩ = rest.get ⟨j, hj1⟩ from rfl] at hlt ⊢
      rw [ih (pat.set st (pyBit val k)) val (k + 1) j hj1 (List.nodup_cons.mp hnd).2
        (by rw [List.length_set]; exact hlt)]
      rw [show k + 1 + j = k + (j + 1) by omega]

theorem applyFieldAux_le_one (stages : List Nat) : ∀ (pat : List Nat) (val : Int) (k : Nat),
    (∀ b ∈ pat, b ≤ 1) → ∀ b ∈ applyFieldAux pat stages val k, b ≤ 1 := by
  induction stages with
  | nil => intro pat val k h; exact h
  | cons st rest ih =>
    intro pat val k h
    rw [applyFieldAux]
    refine ih _ _ _ (fun b hb => ?_)
    rcases List.mem_or_eq_of_mem_set hb with h1 | h1
    · exact h b h1
    · rw [h1]; exact pyBit_le_one val k

theorem applyOpt_length (pat stages : List Nat) (o : Option Int) :
    (applyOpt pat stages o).length = pat.length := by
  cases o with
  | none => rfl
  | some v => exact applyFieldAux_length stages pat v 0

theorem applyOpt_getD_notmem (pat stages : List Nat) (o : Option Int) (st : Nat)
    (h : o ≠ none → st ∉ stages) :
    (applyOpt pat stages o).getD st 0 = pat.getD st 0 := by
  cases o with
  | none => rfl
  | some v => exact applyFieldAux_getD_notmem stages pat v 0 st (h (by simp))

theorem applyOpt_le_one (pat stages : List Nat) (o : Option Int)
    (h : ∀ b ∈ pat, b ≤ 1) : ∀ b ∈ applyOpt pat stages o, b ≤ 1 := by
  cases o with
  | none => exact h
  | some v => exact applyFieldAux_le_one stages pat v 0 h

theorem fieldValAux_congr (stages : List Nat) : ∀ (b1 b2 : List Nat) (k : Nat),
    (∀ st ∈ stages, b1.getD st 0 = b2.getD st 0) →
    fieldValAux b1 stages k = fieldValAux b2 stages k := by
  induction stages with
  | nil => intro b1 b2 k _; rfl
  | cons st rest ih =>
    intro b1 b2 k h
    rw [fieldValAux, fieldValAux, h st (List.mem_cons_self st rest),
      ih b1 b2 (k + 1) (fun x hx => h x (List.mem_cons_of_mem st hx))]

theorem fieldValAux_reconstruct (stages : List Nat) : ∀ (bits : List Nat) (y k : Nat),
    (∀ j (hj : j < stages.length), bits.getD (stages.get ⟨j, hj⟩) 0 = y / 2 ^ (k + j) % 2) →
    fieldValAux bits stages k = y / 2 ^ k % 2 ^ stages.length * 2 ^ k := by
  induction stages with
  | nil =>
    intro bits y k _
    simp only [fieldValAux, List.length_nil, pow_zero, Nat.mod_one, Nat.zero_mul]
  | cons st rest ih =>
    intro bits y k h
    have h0 : bits.getD st 0 = y / 2 ^ k % 2 := by
      have := h 0 (by simp)
      simpa using this
    have hrest : ∀ j (hj : j < rest.length),
        bits.getD (rest.get ⟨j, hj⟩) 0 = y / 2 ^ (k + 1 + j) % 2 := by
      intro j hj
      have := h (j + 1) (by simpa using Nat.succ_lt_succ hj)
      rw [show (st :: rest).get ⟨j + 1, _⟩ = rest.get ⟨j, hj⟩ from rfl] at this
      rw [this, show k + (j + 1) = k + 1 + j by omega]
    rw [fieldValAux, h0, ih bits y (k + 1) hrest, Nat.shiftLeft_eq]
    have hz1 : y / 2 ^ (k + 1) = y / 2 ^ k / 2 := by
      rw [Nat.div_div_eq_div_mul, pow_succ]
    rw [hz1, List.length_cons]
    have key : y / 2 ^ k % 2 + (y / 2 ^ k / 2 % 2 ^ rest.length) * 2
        = y / 2 ^ k % 2 ^ (rest.length + 1) := by
      have e1 : y / 2 ^ k / 2 % 2 ^ rest.length = y / 2 ^ k % (2 * 2 ^ rest.length) / 2 :=
        (Nat.mod_mul_right_div_self (y / 2 ^ k) 2 (2 ^ rest.length)).symm
      have e3 : 2 * 2 ^ rest.length = 2 ^ (rest.length + 1) := by ring
      have e2 : y / 2 ^ k % 2 ^ (rest.length + 1) % 2 = y / 2 ^ k % 2 :=
        Nat.mod_mod_of_dvd _ ⟨2 ^ rest.length, by ring⟩
      rw [e1, e3, ← e2]
      omega
    calc y / 2 ^ k % 2 * 2 ^ k + y / 2 ^ k / 2 % 2 ^ rest.length * 2 ^ (k + 1)
        = (y / 2 ^ k % 2 + (y / 2 ^ k / 2 % 2 ^ rest.length) * 2) * 2 ^ k := by ring
      _ = y / 2 ^ k % 2 ^ (rest.length + 1) * 2 ^ k := by rw [key]

/-! Stage-group facts, established by computation on the tables. -/

theorem fieldStages_nodup : ∀ f : Field, (fieldStages f).Nodup := by decide

theorem fieldStages_lt48 : ∀ f : Field, ∀ st ∈ fieldStages f, st < 48 := by decide

theorem fieldStages_disjoint : ∀ f g : Field, f ≠ g → ∀ st ∈ fieldStages f, st ∉ fieldStages g := by
  decide

theorem fieldWidth_eq : fieldWidth .AZ = 24 ∧ fieldWidth .EL = 2 ∧ fieldWidth .FM = 4 ∧
    fieldWidth .AT = 3 ∧ fieldWidth .PE = 2 ∧ fieldWidth .SS = 5 := by decide

/-! Specification lemmas for the composed bus operations. -/

theorem convert_list_ok (pat : List Nat) (hlen : pat.length = 48)
    (hbit : ∀ b ∈ pat, b ≤ 1) : convert_to_bits (.list pat) = .ok pat := by
  show (if pat.length ≠ 48 ∨ ¬ (pat.all (fun b => b == 0 || b == 1)) then
      (.error "List input must be 48 elements of 0 or 1." : Except String (List Nat))
    else .ok pat) = .ok pat
  rw [if_neg]
  intro h
  rcases h with h | h
  · exact h hlen
  · refine h ?_
    rw [List.all_eq_true]
    intro b hb
    have := hbit b hb
    simp only [Bool.or_eq_true, beq_iff_eq]
    omega

theorem update_list_eq (s : Bus) (pat : List Nat) (hlen : pat.length = 48)
    (hbit : ∀ b ∈ pat, b ≤ 1) :
    update_shift_registers s (.list pat) = (busWrite s pat, none) := by
  unfold update_shift_registers
  rw [convert_list_ok pat hlen hbit]

theorem WF_busWrite (s : Bus) (h : WF s) (bits : List Nat) (hlen : bits.length = 48)
    (hbit : ∀ b ∈ bits, b ≤ 1) : WF (busWrite s bits) := by
  obtain ⟨h1, h2, h3, h4, h5, h6⟩ := h
  rw [busWrite_eq s bits h3 h4 h1 hlen]
  exact ⟨h2, hlen, h3, h4, h6, hbit⟩

theorem readField_eq (s : Bus) (h : WF s) (f : Field) :
    readField s f = (fieldVal s.latch (fieldStages f),
      { s with oe := 0, ser := s.latch.getLastD s.ser }) := by
  obtain ⟨h1, h2, h3, h4, h5, h6⟩ := h
  unfold readField
  rw [read_shift_registers_spec s h3 h4 h1 h2]

theorem WF_oe_ser (s : Bus) (h : WF s) (o se : Nat) : WF { s with oe := o, ser := se } := h

theorem buildPure_length (pat : List Nat) (az el fm att pe ss : Option Int) :
    (buildPure pat az el fm att pe ss).length = pat.length := by
  unfold buildPure
  rw [applyOpt_length, applyOpt_length, applyOpt_length, applyOpt_length, applyOpt_length,
    applyOpt_length]

theorem buildPure_le_one (pat : List Nat) (az el fm att pe ss : Option Int)
    (h : ∀ b ∈ pat, b ≤ 1) : ∀ b ∈ buildPure pat az el fm att pe ss, b ≤ 1 := by
  unfold buildPure
  exact applyOpt_le_one _ _ _ (applyOpt_le_one _ _ _ (applyOpt_le_one _ _ _
    (applyOpt_le_one _ _ _ (applyOpt_le_one _ _ _ (applyOpt_le_one _ _ _ h)))))

theorem build_cpld_pattern_eq (s : Bus) (h : WF s) (az el fm att pe ss : Option Int) :
    build_cpld_pattern s az el fm att pe ss = (buildPure s.latch az el fm att pe ss,
      { s with oe := 0, ser := s.latch.getLastD s.ser }) := by
  obtain ⟨h1, h2, h3, h4, h5, h6⟩ := h
  unfold build_cpld_pattern
  rw [read_shift_registers_spec s h3 h4 h1 h2]

theorem buildSingle_eq (s : Bus) (f : Field) (v : Int) :
    buildSingle s f v = (applyField (read_shift_registers s).1 (fieldStages f) v,
      (read_shift_registers s).2) := by
  cases f <;> rfl

/-! Lemmas about buildPure: the specified fields are written bit by bit, every
stage outside the specified groups keeps its snapshot value. -/

theorem buildPure_getD_outside (pat : List Nat) (az el fm att pe ss : Option Int) (st : Nat)
    (haz : az ≠ none → st ∉ fieldStages .AZ)
    (hel : el ≠ none → st ∉ fieldStages .EL)
    (hfm : fm ≠ none → st ∉ fieldStages .FM)
    (hat : att ≠ none → st ∉ fieldStages .AT)
    (hpe : pe ≠ none → st ∉ fieldStages .PE)
    (hss : ss ≠ none → st ∉ fieldStages .SS) :
    (buildPure pat az el fm att pe ss).getD st 0 = pat.getD st 0 := by
  unfold buildPure
  rw [applyOpt_getD_notmem _ _ _ _ hpe, applyOpt_getD_notmem _ _ _ _ hss,
    applyOpt_getD_notmem _ _ _ _ hat, applyOpt_getD_notmem _ _ _ _ hfm,
    applyOpt_getD_notmem _ _ _ _ hel, applyOpt_getD_notmem _ _ _ _ haz]

theorem buildPure_getD_AZ (pat : List Nat) (v : Int) (el fm att pe ss : Option Int)
    (j : Nat) (hj : j < (fieldStages .AZ).length) (hlen : pat.length = 48) :
    (buildPure pat (some v) el fm att pe ss).getD
      ((fieldStages .AZ).get ⟨j, hj⟩) 0 = pyBit v j := by
  have hmem : (fieldStages .AZ).get ⟨j, hj⟩ ∈ fieldStages .AZ := List.get_mem _ j hj
  unfold buildPure
  rw [applyOpt_getD_notmem _ _ _ _ (fun _ => fieldStages_disjoint .AZ .PE (by decide) _ hmem),
    applyOpt_getD_notmem _ _ _ _ (fun _ => fieldStages_disjoint .AZ .SS (by decide) _ hmem),
    applyOpt_getD_notmem _ _ _ _ (fun _ => fieldStages_disjoint .AZ .AT (by decide) _ hmem),
    applyOpt_getD_notmem _ _ _ _ (fun _ => fieldStages_disjoint .AZ .FM (by decide) _ hmem),
    applyOpt_getD_notmem _ _ _ _ (fun _ => fieldStages_disjoint .AZ .EL (by decide) _ hmem)]
  rw [show applyOpt pat (fieldStages .AZ) (some v)
    = applyFieldAux pat (fieldStages .AZ) v 0 from rfl]
  rw [applyFieldAux_getD_mem _ _ _ _ _ hj (fieldStages_nodup .AZ) ?hlt]
  · simp
  case hlt =>
    rw [hlen]
    exact fieldStages_lt48 .AZ _ hmem
theorem buildPure_getD_EL (pat : List Nat) (v : Int) (az fm att pe ss : Option Int)
    (j : Nat) (hj : j < (fieldStages .EL).length) (hlen : pat.length = 48) :
    (buildPure pat az (some v) fm att pe ss).getD
      ((fieldStages .EL).get ⟨j, hj⟩) 0 = pyBit v j := by
  have hmem : (fieldStages .EL).get ⟨j, hj⟩ ∈ fieldStages .EL := List.get_mem _ j hj
  unfold buildPure
  rw [applyOpt_getD_notmem _ _ _ _ (fun _ => fieldStages_disjoint .EL .PE (by decide) _ hmem),
    applyOpt_getD_notmem _ _ _ _ (fun _ => fieldStages_disjoint .EL .SS (by decide) _ hmem),
    applyOpt_getD_notmem _ _ _ _ (fun _ => fieldStages_disjoint .EL .AT (by decide) _ hmem),
    applyOpt_getD_notmem _ _ _ _ (fun _ => fieldStages_disjoint .EL .FM (by decide) _ hmem)]
  rw [show applyOpt (applyOpt pat (fieldStages .AZ) az) (fieldStages .EL) (some v)
    = applyFieldAux (applyOpt pat (fieldStages .AZ) az) (fieldStages .EL) v 0 from rfl]
  rw [applyFieldAux_getD_mem _ _ _ _ _ hj (fieldStages_nodup .EL) ?hlt]
  · simp
  case hlt =>
    rw [applyOpt_length]
    rw [hlen]
    exact fieldStages_lt48 .EL _ hmem
theorem buildPure_getD_FM (pat : List Nat) (v : Int) (az el att pe ss : Option Int)
    (j : Nat) (hj : j < (fieldStages .FM).length) (hlen : pat.length = 48) :
    (buildPure pat az el (some v) att pe ss).getD
      ((fieldStages .FM).get ⟨j, hj⟩) 0 = pyBit v j := by
  have hmem : (fieldStages .FM).get ⟨j, hj⟩ ∈ fieldStages .FM := List.get_mem _ j hj
  unfold buildPure
  rw [applyOpt_getD_notmem _ _ _ _ (fun _ => fieldStages_disjoint .FM .PE (by decide) _ hmem),
    applyOpt_getD_notmem _ _ _ _ (fun _ => fieldStages_disjoint .FM .SS (by decide) _ hmem),
    applyOpt_getD_notmem _ _ _ _ (fun _ => fieldStages_disjoint .FM .AT (by decide) _ hmem)]
  rw [show applyOpt (applyOpt (applyOpt pat (fieldStages .AZ) az) (fieldStages .EL) el) (fieldStages .FM) (some v)
    = applyFieldAux (applyOpt (applyOpt pat (fieldStages .AZ) az) (fieldStages .EL) el) (fieldStages .FM) v 0 from rfl]
  rw [applyFieldAux_getD_mem _ _ _ _ _ hj (fieldStages_nodup .FM) ?hlt]
  · simp
  case hlt =>
    rw [applyOpt_length, applyOpt_length]
    rw [hlen]
    exact fieldStages_lt48 .FM _ hmem
theorem buildPure_getD_AT (pat : List Nat) (v : Int) (az el fm pe ss : Option Int)
    (j : Nat) (hj : j < (fieldStages .AT).length) (hlen : pat.length = 48) :
    (buildPure pat az el fm (some v) pe ss).getD
      ((fieldStages .AT).get ⟨j, hj⟩) 0 = pyBit v j := by
  have hmem : (fieldStages .AT).get ⟨j, hj⟩ ∈ fieldStages .AT := List.get_mem _ j hj
  unfold buildPure
  rw [applyOpt_getD_notmem _ _ _ _ (fun _ => fieldStages_disjoint .AT .PE (by decide) _ hmem),
    applyOpt_getD_notmem _ _ _ _ (fun _ => fieldStages_disjoint .AT .SS (by decide) _ hmem)]
  rw [show applyOpt (applyOpt (applyOpt (applyOpt pat (fieldStages .AZ) az) (fieldStages .EL) el) (fieldStages .FM) fm) (fieldStages .AT) (some v)
    = applyFieldAux (applyOpt (applyOpt (applyOpt pat (fieldStages .AZ) az) (fieldStages .EL) el) (fieldStages .FM) fm) (fieldStages .AT) v 0 from rfl]
  rw [applyFieldAux_getD_mem _ _ _ _ _ hj (fieldStages_nodup .AT) ?hlt]
  · simp
  case hlt =>
    rw [applyOpt_length, applyOpt_length, applyOpt_length]
    rw [hlen]
    exact fieldStages_lt48 .AT _ hmem
theorem buildPure_getD_PE (pat : List Nat) (v : Int) (az el fm att ss : Option Int)
    (j : Nat) (hj : j < (fieldStages .PE).length) (hlen : pat.length = 48) :
    (buildPure pat az el fm att (some v) ss).getD
      ((fieldStages .PE).get ⟨j, hj⟩) 0 = pyBit v j := by
  have hmem : (fieldStages .PE).get ⟨j, hj⟩ ∈ fieldStages .PE := List.get_mem _ j hj
  unfold buildPure
  rw [show applyOpt (applyOpt (applyOpt (applyOpt (applyOpt (applyOpt pat (fieldStages .AZ) az) (fieldStages .EL) el) (fieldStages .FM) fm) (fieldStages .AT) att) (fieldStages .SS) ss) (fieldStages .PE) (some v)
    = applyFieldAux (applyOpt (applyOpt (applyOpt (applyOpt (applyOpt pat (fieldStages .AZ) az) (fieldStages .EL) el) (fieldStages .FM) fm) (fieldStages .AT) att) (fieldStages .SS) ss) (fieldStages .PE) v 0 from rfl]
  rw [applyFieldAux_getD_mem _ _ _ _ _ hj (fieldStages_nodup .PE) ?hlt]
  · simp
  case hlt =>
    rw [applyOpt_length, applyOpt_length, applyOpt_length, applyOpt_length, applyOpt_length]
    rw [hlen]
    exact fieldStages_lt48 .PE _ hmem
theorem buildPure_getD_SS (pat : List Nat) (v : Int) (az el fm att pe : Option Int)
    (j : Nat) (hj : j < (fieldStages .SS).length) (hlen : pat.length = 48) :
    (buildPure pat az el fm att pe (some v)).getD
      ((fieldStages .SS).get ⟨j, hj⟩) 0 = pyBit v j := by
  have hmem : (fieldStages .SS).get ⟨j, hj⟩ ∈ fieldStages .SS := List.get_mem _ j hj
  unfold buildPure
  rw [applyOpt_getD_notmem _ _ _ _ (fun _ => fieldStages_disjoint .SS .PE (by decide) _ hmem)]
  rw [show applyOpt (applyOpt (applyOpt (applyOpt (applyOpt pat (fieldStages .AZ) az) (fieldStages .EL) el) (fieldStages .FM) fm) (fieldStages .AT) att) (fieldStages .SS) (some v)
    = applyFieldAux (applyOpt (applyOpt (applyOpt (applyOpt pat (fieldStages .AZ) az) (fieldStages .EL) el) (fieldStages .FM) fm) (fieldStages .AT) att) (fieldStages .SS) v 0 from rfl]
  rw [applyFieldAux_getD_mem _ _ _ _ _ hj (fieldStages_nodup .SS) ?hlt]
  · simp
  case hlt =>
    rw [applyOpt_length, applyOpt_length, applyOpt_length, applyOpt_length]
    rw [hlen]
    exact fieldStages_lt48 .SS _ hmem
theorem buildPure_getD_field (o : Field → Option Int) (pat : List Nat) (hlen : pat.length = 48)
    (f : Field) (v : Int) (ho : o f = some v) (j : Nat) (hj : j < (fieldStages f).length) :
    (buildPure pat (o .AZ) (o .EL) (o .FM) (o .AT) (o .PE) (o .SS)).getD
      ((fieldStages f).get ⟨j, hj⟩) 0 = pyBit v j := by
  cases f with
  | AZ => rw [ho]; exact buildPure_getD_AZ pat v _ _ _ _ _ j hj hlen
  | EL => rw [ho]; exact buildPure_getD_EL pat v _ _ _ _ _ j hj hlen
  | FM => rw [ho]; exact buildPure_getD_FM pat v _ _ _ _ _ j hj hlen
  | AT => rw [ho]; exact buildPure_getD_AT pat v _ _ _ _ _ j hj hlen
  | PE => rw [ho]; exact buildPure_getD_PE pat v _ _ _ _ _ j hj hlen
  | SS => rw [ho]; exact buildPure_getD_SS pat v _ _ _ _ _ j hj hlen

theorem fieldVal_overlay_self (pat : List Nat) (f : Field) (y : Nat) (hlen : pat.length = 48) :
    fieldVal (applyField pat (fieldStages f) (y : Int)) (fieldStages f)
      = y % 2 ^ (fieldStages f).length := by
  unfold fieldVal
  rw [fieldValAux_reconstruct (fieldStages f) _ y 0 ?h]
  · simp
  case h =>
    intro j hj
    rw [show applyField pat (fieldStages f) (y : Int)
      = applyFieldAux pat (fieldStages f) (y : Int) 0 from rfl]
    rw [applyFieldAux_getD_mem _ _ _ _ _ hj (fieldStages_nodup f)
      (by rw [hlen]; exact fieldStages_lt48 f _ (List.get_mem _ j hj))]
    rw [pyBit_natCast]

theorem fieldVal_overlay_other (pat : List Nat) (f g : Field) (hfg : g ≠ f) (v : Int) :
    fieldVal (applyField pat (fieldStages g) v) (fieldStages f)
      = fieldVal pat (fieldStages f) := by
  unfold fieldVal
  apply fieldValAux_congr
  intro st hst
  exact applyFieldAux_getD_notmem _ _ _ _ _
    (fieldStages_disjoint f g (fun he => hfg he.symm) st hst)

theorem writeField_spec (s : Bus) (h : WF s) (f : Field) (v : Int) :
    (writeField s f v).2 = none ∧
    (writeField s f v).1.latch = applyField s.latch (fieldStages f) v ∧
    WF (writeField s f v).1 := by
  obtain ⟨h1, h2, h3, h4, h5, h6⟩ := h
  have hr := read_shift_registers_spec s h3 h4 h1 h2
  unfold writeField
  rw [buildSingle_eq, hr]
  simp only []
  have hplen : (applyField s.latch (fieldStages f) v).length = 48 := by
    rw [show applyField s.latch (fieldStages f) v
      = applyFieldAux s.latch (fieldStages f) v 0 from rfl, applyFieldAux_length]
    exact h2
  have hpbit : ∀ b ∈ applyField s.latch (fieldStages f) v, b ≤ 1 :=
    applyFieldAux_le_one _ _ _ _ h6
  rw [update_list_eq _ _ hplen hpbit]
  have hw := busWrite_eq ({ s with oe := 0, ser := s.latch.getLastD s.ser } : Bus)
    (applyField s.latch (fieldStages f) v) h3 h4 h1 hplen
  refine ⟨rfl, ?_, ?_⟩
  · simp only [hw]
  · exact WF_busWrite ({ s with oe := 0, ser := s.latch.getLastD s.ser } : Bus)
      (WF_oe_ser s ⟨h1, h2, h3, h4, h5, h6⟩ 0 (s.latch.getLastD s.ser)) _ hplen hpbit

theorem readField_facts (s : Bus) (h : WF s) (f : Field) :
    (readField s f).1 = fieldVal s.latch (fieldStages f) ∧
    (readField s f).2.latch = s.latch ∧ WF (readField s f).2 := by
  rw [readField_eq s h f]
  exact ⟨rfl, rfl, WF_oe_ser s h 0 _⟩

theorem build_facts (s : Bus) (h : WF s) (az el fm att pe ss : Option Int) :
    (build_cpld_pattern s az el fm att pe ss).1 = buildPure s.latch az el fm att pe ss ∧
    (build_cpld_pattern s az el fm att pe ss).2.latch = s.latch ∧
    WF (build_cpld_pattern s az el fm att pe ss).2 := by
  rw [build_cpld_pattern_eq s h az el fm att pe ss]
  exact ⟨rfl, rfl, WF_oe_ser s h 0 _⟩

theorem update_facts (s : Bus) (h : WF s) (pat : List Nat) (hlen : pat.length = 48)
    (hbit : ∀ b ∈ pat, b ≤ 1) :
    (update_shift_registers s (.list pat)).2 = none ∧
    (update_shift_registers s (.list pat)).1.latch = pat ∧
    WF (update_shift_registers s (.list pat)).1 := by
  obtain ⟨h1, h2, h3, h4, h5, h6⟩ := h
  rw [update_list_eq s pat hlen hbit]
  refine ⟨rfl, ?_, WF_busWrite s ⟨h1, h2, h3, h4, h5, h6⟩ pat hlen hbit⟩
  rw [show ((busWrite s pat, (none : Option String)).1) = busWrite s pat from rfl,
    busWrite_eq s pat h3 h4 h1 hlen]

theorem fieldVal_buildPure_field (o : Field → Option Int) (pat : List Nat)
    (hlen : pat.length = 48) (f : Field) (y : Nat) (ho : o f = some (y : Int)) :
    fieldVal (buildPure pat (o .AZ) (o .EL) (o .FM) (o .AT) (o .PE) (o .SS)) (fieldStages f)
      = y % 2 ^ (fieldStages f).length := by
  unfold fieldVal
  rw [fieldValAux_reconstruct (fieldStages f) _ y 0 ?h]
  · simp
  case h =>
    intro j hj
    rw [buildPure_getD_field o pat hlen f (y : Int) ho j hj, pyBit_natCast]
    rw [Nat.zero_add]

theorem command_setaz_spec (s : Bus) (hWF : WF s) (az : Int) :
    (command_setaz s az).2 = none ∧
    (command_setaz s az).1.latch = buildPure s.latch (some az)
      (some (fieldVal s.latch (fieldStages .EL) : Int))
      (some (fieldVal s.latch (fieldStages .FM) : Int))
      (some (fieldVal s.latch (fieldStages .AT) : Int))
      (some (fieldVal s.latch (fieldStages .PE) : Int))
      (some (fieldVal s.latch (fieldStages .SS) : Int)) ∧
    WF (command_setaz s az).1 := by
  simp only [command_setaz]
  obtain ⟨e1, l1, w1⟩ := readField_facts s hWF .EL
  set sa := (readField s .EL).2 with hsa
  obtain ⟨e2, l2, w2⟩ := readField_facts sa w1 .FM
  set sb := (readField sa .FM).2 with hsb
  obtain ⟨e3, l3, w3⟩ := readField_facts sb w2 .AT
  set sc := (readField sb .AT).2 with hsc
  obtain ⟨e4, l4, w4⟩ := readField_facts sc w3 .PE
  set sd := (readField sc .PE).2 with hsd
  obtain ⟨e5, l5, w5⟩ := readField_facts sd w4 .SS
  set se := (readField sd .SS).2 with hse
  rw [l1] at e2
  rw [l2, l1] at e3
  rw [l3, l2, l1] at e4
  rw [l4, l3, l2, l1] at e5
  rw [e1, e2, e3, e4, e5]
  obtain ⟨bv, bl, bw⟩ := build_facts se w5 (some az)
    (some (fieldVal s.latch (fieldStages .EL) : Int))
    (some (fieldVal s.latch (fieldStages .FM) : Int))
    (some (fieldVal s.latch (fieldStages .AT) : Int))
    (some (fieldVal s.latch (fieldStages .PE) : Int))
    (some (fieldVal s.latch (fieldStages .SS) : Int))
  rw [l5, l4, l3, l2, l1] at bv
  have hplen : (buildPure s.latch (some az)
      (some (fieldVal s.latch (fieldStages .EL) : Int))
      (some (fieldVal s.latch (fieldStages .FM) : Int))
      (some (fieldVal s.latch (fieldStages .AT) : Int))
      (some (fieldVal s.latch (fieldStages .PE) : Int))
      (some (fieldVal s.latch (fieldStages .SS) : Int))).length = 48 := by
    rw [buildPure_length]
    exact hWF.2.1
  have hpbit := buildPure_le_one s.latch (some az)
    (some (fieldVal s.latch (fieldStages .EL) : Int))
    (some (fieldVal s.latch (fieldStages .FM) : Int))
    (some (fieldVal s.latch (fieldStages .AT) : Int))
    (some (fieldVal s.latch (fieldStages .PE) : Int))
    (some (fieldVal s.latch (fieldStages .SS) : Int))
    hWF.2.2.2.2.2
  rw [bv]
  obtain ⟨u1, u2, u3⟩ := update_facts _ bw _ hplen hpbit
  exact ⟨u1, u2, u3⟩

/-! Claim theorems. -/

/-- C9: for every well-formed latched 48-bit register state,
read_shift_registers returns exactly the latched bit vector and, because it
shifts the captured bits back in and latches them again before returning, the
register contents (latched outputs and shift path) after the read equal those
before the read. -/
theorem C9_read_restores (s : Bus) (h : WF s) :
    (read_shift_registers s).1 = s.latch ∧
    (read_shift_registers s).2.latch = s.latch ∧
    (read_shift_registers s).2.shift = s.shift := by
  obtain ⟨h1, h2, h3, h4, h5, h6⟩ := h
  rw [read_shift_registers_spec s h3 h4 h1 h2]
  exact ⟨rfl, rfl, rfl⟩

theorem C9_read_restores_witness :
    WF busW ∧
    ((read_shift_registers busW).1 = busW.latch ∧
      (read_shift_registers busW).2.latch = busW.latch ∧
      (read_shift_registers busW).2.shift = busW.shift) :=
  ⟨by decide, C9_read_restores busW (by decide)⟩

/-- C2: field isolation and the overlay characterisation of
build_cpld_pattern.  First part: writing field B to an in-range value y and
then writing any other field A leaves the readable value of B (reassembled
from a fresh bus read) equal to y.  Second part: for every snapshot and every
set of specified fields, the built pattern carries bit (value >> i) & 1 at
the i-th stage of each specified field group (ascending) and agrees with the
snapshot on every stage outside the specified groups. -/
theorem C2_field_isolation :
    (∀ (A B : Field) (x y : Nat) (s : Bus), A ≠ B → WF s →
      x < 2 ^ fieldWidth A → y < 2 ^ fieldWidth B →
      (writeField s B (y : Int)).2 = none ∧
      (writeField (writeField s B (y : Int)).1 A (x : Int)).2 = none ∧
      (readField (writeField (writeField s B (y : Int)).1 A (x : Int)).1 B).1 = y) ∧
    (∀ (o : Field → Option Int) (pat : List Nat), pat.length = 48 →
      (∀ (f : Field) (v : Int), o f = some v → ∀ j (hj : j < (fieldStages f).length),
        (buildPure pat (o .AZ) (o .EL) (o .FM) (o .AT) (o .PE) (o .SS)).getD
          ((fieldStages f).get ⟨j, hj⟩) 0 = pyBit v j) ∧
      (∀ st : Nat, (∀ f : Field, o f ≠ none → st ∉ fieldStages f) →
        (buildPure pat (o .AZ) (o .EL) (o .FM) (o .AT) (o .PE) (o .SS)).getD st 0
          = pat.getD st 0)) := by
  constructor
  · intro A B x y s hAB hWF hx hy
    obtain ⟨w1n, w1l, w1wf⟩ := writeField_spec s hWF B (y : Int)
    obtain ⟨w2n, w2l, w2wf⟩ := writeField_spec _ w1wf A (x : Int)
    refine ⟨w1n, w2n, ?_⟩
    obtain ⟨rv, _, _⟩ := readField_facts _ w2wf B
    rw [rv, w2l, w1l]
    rw [fieldVal_overlay_other _ B A hAB (x : Int)]
    rw [fieldVal_overlay_self s.latch B y hWF.2.1]
    exact Nat.mod_eq_of_lt hy
  · intro o pat hlen
    refine ⟨fun f v ho j hj => buildPure_getD_field o pat hlen f v ho j hj,
      fun st hst => buildPure_getD_outside pat _ _ _ _ _ _ st
        (hst .AZ) (hst .EL) (hst .FM) (hst .AT) (hst .PE) (hst .SS)⟩

theorem C2_field_isolation_witness :
    ((writeField bus0 .PE 2).2 = none ∧
      (writeField (writeField bus0 .PE (2 : Int)).1 .EL (1 : Int)).2 = none ∧
      (readField (writeField (writeField bus0 .PE (2 : Int)).1 .EL (1 : Int)).1 .PE).1 = 2) ∧
    (buildPure (List.replicate 48 0) (singleOpt .PE 2 .AZ) (singleOpt .PE 2 .EL)
      (singleOpt .PE 2 .FM) (singleOpt .PE 2 .AT) (singleOpt .PE 2 .PE)
      (singleOpt .PE 2 .SS)).getD 0 0 = (List.replicate 48 0 : List Nat).getD 0 0 := by
  constructor
  · exact C2_field_isolation.1 .EL .PE 1 2 bus0 (by decide) (by decide) (by decide) (by decide)
  · exact (C2_field_isolation.2 (singleOpt .PE 2) (List.replicate 48 0) (by decide)).2 0
      (by decide)

/-- C3 counterexample: the claim fails for the AZ field.  At the out-of-range
azimuth value 16777217 = 2^24 + 1 the handler command_setaz reports no error
(second component none instead of a range failure) and performs a
shift-register write that changes the 48-bit hardware state. -/
theorem C3_setaz_unchecked_counterexample :
    (command_setaz bus0 16777217).2 = none ∧
    (command_setaz bus0 16777217).1.latch ≠ bus0.latch := by
  obtain ⟨hn, hl, _⟩ := command_setaz_spec bus0 (by decide) 16777217
  refine ⟨hn, ?_⟩
  rw [hl]
  intro hEq
  have hbit := buildPure_getD_AZ bus0.latch 16777217
    (some (fieldVal bus0.latch (fieldStages .EL) : Int))
    (some (fieldVal bus0.latch (fieldStages .FM) : Int))
    (some (fieldVal bus0.latch (fieldStages .AT) : Int))
    (some (fieldVal bus0.latch (fieldStages .PE) : Int))
    (some (fieldVal bus0.latch (fieldStages .SS) : Int))
    0 (by decide) (by decide)
  rw [hEq] at hbit
  revert hbit
  decide

/-- C3 amended: for EL (0-3), FM (0-15), AT (0-7), PE (0-3) and SS (0-31) an
out-of-range value makes the handler fail with the range ValueError and
perform no shift-register write (the state is returned unchanged); the setaz
handler, however, performs no range check: every azimuth value is accepted, a
write is performed, and only the low 24 bits of the value land in the AZ
field. -/
theorem C3_range_checks :
    (∀ (s : Bus) (v : Int), v < 0 ∨ 4 ≤ v →
      command_setel s v = (s, some "Elevation must be 0-3")) ∧
    (∀ (s : Bus) (v : Int), v < 0 ∨ 16 ≤ v →
      command_setfm s v = (s, some "FEM mode must be 0-15")) ∧
    (∀ (s : Bus) (v : Int), v < 0 ∨ 8 ≤ v →
      command_setat s v = (s, some "Antenna test must be 0-7")) ∧
    (∀ (s : Bus) (v : Int), v < 0 ∨ 4 ≤ v →
      command_setpe s v = (s, some "Power enable must be 0-3")) ∧
    (∀ (s : Bus) (v : Int), v < 0 ∨ 32 ≤ v →
      command_setss s v = (s, some "Sensor select must be 0-31")) ∧
    (∀ (s : Bus), WF s → ∀ az : Nat,
      (command_setaz s (az : Int)).2 = none ∧
      (readField (command_setaz s (az : Int)).1 .AZ).1 = az % 2 ^ 24) := by
  refine ⟨?_, ?_, ?_, ?_, ?_, ?_⟩
  · intro s v hv
    unfold command_setel
    rw [if_pos (by omega)]
  · intro s v hv
    unfold command_setfm
    rw [if_pos (by omega)]
  · intro s v hv
    unfold command_setat
    rw [if_pos (by omega)]
  · intro s v hv
    unfold command_setpe
    rw [if_pos (by omega)]
  · intro s v hv
    unfold command_setss
    rw [if_pos (by omega)]
  · intro s hWF az
    obtain ⟨hn, hl, hw⟩ := command_setaz_spec s hWF (az : Int)
    refine ⟨hn, ?_⟩
    obtain ⟨rv, _, _⟩ := readField_facts _ hw .AZ
    rw [rv, hl]
    have := fieldVal_buildPure_field
      (fun g => if g = .AZ then some (az : Int) else
        if g = .EL then some (fieldVal s.latch (fieldStages .EL) : Int) else
        if g = .FM then some (fieldVal s.latch (fieldStages .FM) : Int) else
        if g = .AT then some (fieldVal s.latch (fieldStages .AT) : Int) else
        if g = .PE then some (fieldVal s.latch (fieldStages .PE) : Int) else
        some (fieldVal s.latch (fieldStages .SS) : Int))
      s.latch hWF.2.1 .AZ az rfl
    simpa using this

theorem C3_range_checks_witness :
    command_setel bus0 4 = (bus0, some "Elevation must be 0-3") ∧
    command_setfm bus0 16 = (bus0, some "FEM mode must be 0-15") ∧
    command_setat bus0 8 = (bus0, some "Antenna test must be 0-7") ∧
    command_setpe bus0 (-1) = (bus0, some "Power enable must be 0-3") ∧
    command_setss bus0 32 = (bus0, some "Sensor select must be 0-31") ∧
    ((command_setaz bus0 ((16777217 : Nat) : Int)).2 = none ∧
      (readField (command_setaz bus0 ((16777217 : Nat) : Int)).1 .AZ).1
        = 16777217 % 2 ^ 24) :=
  ⟨C3_range_checks.1 bus0 4 (by omega),
   C3_range_checks.2.1 bus0 16 (by omega),
   C3_range_checks.2.2.1 bus0 8 (by omega),
   C3_range_checks.2.2.2.1 bus0 (-1) (by omega),
   C3_range_checks.2.2.2.2.1 bus0 32 (by omega),
   C3_range_checks.2.2.2.2.2 bus0 (by decide) 16777217⟩

theorem bits48_length (val : Nat) : (bits48 val).length = 48 := by
  simp [bits48]

theorem bits48_getD (val i : Nat) (h : i < 48) :
    (bits48 val).getD i 0 = val / 2 ^ i % 2 := by
  unfold bits48
  rw [List.getD_eq_getElem?_getD, List.getElem?_map, List.getElem?_range h]
  simp [Nat.shiftRight_eq_div_pow, Nat.and_one_is_mod]

theorem bit_lt_pow48 (v i : Nat) (h : i < 48) :
    v % 2 ^ 48 / 2 ^ i % 2 = v / 2 ^ i % 2 := by
  have e0 : ∀ w : Nat, w / 2 ^ i % 2 = w % 2 ^ (i + 1) / 2 ^ i := by
    intro w
    rw [← Nat.mod_mul_right_div_self w (2 ^ i) 2, pow_succ]
  rw [e0, e0, Nat.mod_mod_of_dvd v (pow_dvd_pow 2 h)]

theorem bits48_mask (v : Nat) : bits48 (v % 2 ^ 48) = bits48 v := by
  unfold bits48
  refine List.map_congr_left (fun i hi => ?_)
  have h : i < 48 := List.mem_range.mp hi
  rw [Nat.shiftRight_eq_div_pow, Nat.shiftRight_eq_div_pow, Nat.and_one_is_mod,
    Nat.and_one_is_mod]
  exact bit_lt_pow48 v i h

theorem int_mask_toNat (v : Nat) : (((v : Int)).emod ((2 : Int) ^ 48)).toNat = v % 2 ^ 48 := by
  rw [show ((2 : Int) ^ 48) = ((2 ^ 48 : Nat) : Int) from by push_cast]
  rw [show ((v : Int)).emod ((2 ^ 48 : Nat) : Int) = ((v % 2 ^ 48 : Nat) : Int) from by
    push_cast; rfl]
  exact Int.toNat_natCast _

theorem convertStr_hex (hp : List Char) (v : Nat)
    (hparse : parseHexDigits (hexPad hp) = some v) :
    convertStr ('0' :: 'x' :: hp) = convert_to_bits (.int (v : Int)) := by
  have h1 : convertStr ('0' :: 'x' :: hp) = .ok (bits48 v) := by
    unfold convertStr
    rw [if_pos (show List.take 2 ('0' :: 'x' :: hp) = ['0', 'x'] from rfl),
      show ('0' :: 'x' :: hp).drop 2 = hp from rfl, hparse]
  rw [h1, show convert_to_bits (.int (v : Int))
    = .ok (bits48 ((((v : Int))).emod ((2 : Int) ^ 48)).toNat) from rfl,
    int_mask_toNat, bits48_mask]

/-- C8: the integer branch of convert_to_bits returns the 48-element LSB-first
bit expansion of the value reduced mod 2^48 (higher bits silently dropped,
also for negative input); the hex branch masks an over-wide value to 48 bits
instead of rejecting it, producing the exact pattern of the masked integer;
in particular writeRawPattern on the 49-bit string 0x1FFFFFFFFFFFF is
accepted and equals the pattern of the value masked to 48 bits. -/
theorem C8_mask_to_48_bits :
    (∀ n : Int, ∃ l : List Nat, convert_to_bits (.int n) = .ok l ∧ l.length = 48 ∧
      ∀ i, i < 48 → l.getD i 0 = (n.emod ((2 : Int) ^ 48)).toNat / 2 ^ i % 2) ∧
    (∀ (hp : List Char) (v : Nat), parseHexDigits (hexPad hp) = some v →
      convertStr ('0' :: 'x' :: hp) = convert_to_bits (.int (v : Int))) ∧
    (convert_to_bits (.str "0x1FFFFFFFFFFFF") = convert_to_bits (.int ((2 : Int) ^ 49 - 1)) ∧
      convert_to_bits (.int ((2 : Int) ^ 49 - 1)) = .ok (bits48 (2 ^ 48 - 1))) := by
  have hcast : ((2 : Int) ^ 49 - 1) = (((2 ^ 49 - 1 : Nat)) : Int) := by push_cast
  refine ⟨?_, convertStr_hex, ?_, ?_⟩
  · intro n
    refine ⟨bits48 (n.emod ((2 : Int) ^ 48)).toNat, rfl, bits48_length _, ?_⟩
    intro i hi
    exact bits48_getD _ i hi
  · have hs : pyLower (pyStrip "0x1FFFFFFFFFFFF".data)
        = '0' :: 'x' :: "1ffffffffffff".data := by decide
    rw [show convert_to_bits (.str "0x1FFFFFFFFFFFF")
      = convertStr (pyLower (pyStrip "0x1FFFFFFFFFFFF".data)) from rfl, hs]
    rw [convertStr_hex "1ffffffffffff".data (2 ^ 49 - 1) (by decide), hcast]
  · rw [hcast]
    rw [show convert_to_bits (.int ((2 ^ 49 - 1 : Nat) : Int))
      = .ok (bits48 (((((2 ^ 49 - 1 : Nat)) : Int)).emod ((2 : Int) ^ 48)).toNat) from rfl,
      int_mask_toNat]
    rw [show (2 ^ 49 - 1) % 2 ^ 48 = 2 ^ 48 - 1 from by norm_num]

theorem C8_mask_to_48_bits_witness :
    parseHexDigits (hexPad ("1ffffffffffff".data)) = some (2 ^ 49 - 1) ∧
    convertStr ('0' :: 'x' :: "1ffffffffffff".data)
      = convert_to_bits (.int ((2 ^ 49 - 1 : Nat) : Int)) :=
  ⟨by decide, C8_mask_to_48_bits.2.1 "1ffffffffffff".data (2 ^ 49 - 1) (by decide)⟩

/-! Rail-state accessor lemmas and regulation-loop lemmas. -/

theorem filtered_setFiltered_self (st : VCState) (ch : Channel) (v : ℚ) :
    (st.setFiltered ch v).filtered ch = v := by
  cases ch <;> rfl

theorem filtered_setFiltered_ne (st : VCState) (c ch : Channel) (v : ℚ) (h : c ≠ ch) :
    (st.setFiltered c v).filtered ch = st.filtered ch := by
  cases c <;> cases ch <;> first | rfl | exact absurd rfl h

theorem wiper_setFiltered (st : VCState) (c ch : Channel) (v : ℚ) :
    (st.setFiltered c v).wiper ch = st.wiper ch := by
  cases c <;> cases ch <;> rfl

theorem filtered_setWiper (st : VCState) (c ch : Channel) (v : Int) :
    (st.setWiper c v).filtered ch = st.filtered ch := by
  cases c <;> cases ch <;> rfl

theorem wiper_setWiper_self (st : VCState) (ch : Channel) (v : Int) :
    (st.setWiper ch v).wiper ch = v := by
  cases ch <;> rfl

theorem wiper_setWiper_ne (st : VCState) (c ch : Channel) (v : Int) (h : c ≠ ch) :
    (st.setWiper c v).wiper ch = st.wiper ch := by
  cases c <;> cases ch <;> first | rfl | exact absurd rfl h

theorem stepLoop_notmem (alpha : ℚ) (env : Channel → Except String ℚ)
    (targets : Channel → ℚ) : ∀ (chans : List Channel) (st : VCState)
    (ws : List (Nat × Int)) (ch : Channel), ch ∉ chans →
    (stepLoop alpha env targets chans st ws).1.wiper ch = st.wiper ch ∧
    (stepLoop alpha env targets chans st ws).1.filtered ch = st.filtered ch := by
  intro chans
  induction chans with
  | nil => intro st ws ch _; exact ⟨rfl, rfl⟩
  | cons c rest ih =>
    intro st ws ch hch
    have hc : c ≠ ch := fun he => hch (he ▸ List.mem_cons_self c rest)
    have hr : ch ∉ rest := fun hm => hch (List.mem_cons_of_mem c hm)
    rw [stepLoop]
    cases henv : env c with
    | error e => exact ⟨rfl, rfl⟩
    | ok raw =>
      simp only []
      split
      · split <;> split <;>
          (refine ⟨(ih _ _ ch hr).1.trans ?_, (ih _ _ ch hr).2.trans ?_⟩ <;>
            simp [wiper_setWiper_ne _ _ _ _ hc, wiper_setFiltered, filtered_setWiper,
              filtered_setFiltered_ne _ _ _ _ hc])
      · refine ⟨(ih _ _ ch hr).1.trans ?_, (ih _ _ ch hr).2.trans ?_⟩ <;>
          simp [wiper_setFiltered, filtered_setFiltered_ne _ _ _ _ hc]

theorem stepLoop_mem (alpha : ℚ) (env : Channel → Except String ℚ)
    (targets : Channel → ℚ) (hok : ∀ c, ∃ q, env c = .ok q) :
    ∀ (chans : List Channel) (st : VCState) (ws : List (Nat × Int)) (ch : Channel)
    (raw : ℚ), chans.Nodup → ch ∈ chans → env ch = .ok raw →
    (stepLoop alpha env targets chans st ws).1.wiper ch
      = railWiperAfter alpha raw (targets ch) (st.filtered ch) (st.wiper ch) := by
  intro chans
  induction chans with
  | nil => intro st ws ch raw _ hmem _; exact absurd hmem (by simp)
  | cons c rest ih =>
    intro st ws ch raw hnd hmem henv
    obtain ⟨hcr, hndr⟩ := List.nodup_cons.mp hnd
    rw [stepLoop]
    by_cases hceq : c = ch
    · subst hceq
      rw [henv]
      simp only [railWiperAfter, filtered_setFiltered_self, wiper_setFiltered]
      by_cases hdb : pyAbs (alpha * raw + (1 - alpha) * st.filtered c - targets c) ≥ 9 / 1000
      · rw [if_pos hdb, if_pos hdb]
        by_cases hne : max 0 (min 255 (st.wiper c +
            if alpha * raw + (1 - alpha) * st.filtered c - targets c > 0 then 1 else -1))
            ≠ st.wiper c
        · rw [if_pos hne, (stepLoop_notmem alpha env targets rest _ _ c hcr).1,
            wiper_setWiper_self]
        · rw [if_neg hne]
          push_neg at hne
          rw [(stepLoop_notmem alpha env targets rest _ _ c hcr).1, wiper_setFiltered]
          exact hne.symm
      · rw [if_neg hdb, if_neg hdb,
          (stepLoop_notmem alpha env targets rest _ _ c hcr).1, wiper_setFiltered]
    · have hmem1 : ch ∈ rest := by
        rcases List.mem_cons.mp hmem with h | h
        · exact absurd h.symm hceq
        · exact h
      obtain ⟨q, hq⟩ := hok c
      rw [hq]
      simp only []
      split
      · split <;> split <;>
          (rw [ih _ _ ch raw hndr hmem1 henv]
           simp [filtered_setWiper, filtered_setFiltered_ne _ _ _ _ hceq,
             wiper_setWiper_ne _ _ _ _ hceq, wiper_setFiltered])
      · rw [ih _ _ ch raw hndr hmem1 henv]
        simp [filtered_setFiltered_ne _ _ _ _ hceq, wiper_setFiltered]

theorem stepLoop_wiper_bound (alpha : ℚ) (env : Channel → Except String ℚ)
    (targets : Channel → ℚ) : ∀ (chans : List Channel) (st : VCState)
    (ws : List (Nat × Int)) (ch : Channel), chans.Nodup →
    0 ≤ st.wiper ch → st.wiper ch ≤ 255 →
    ((stepLoop alpha env targets chans st ws).1.wiper ch - st.wiper ch).natAbs ≤ 1 ∧
    0 ≤ (stepLoop alpha env targets chans st ws).1.wiper ch ∧
    (stepLoop alpha env targets chans st ws).1.wiper ch ≤ 255 := by
  intro chans
  induction chans with
  | nil =>
    intro st ws ch _ h0 h255
    exact ⟨by simp [stepLoop], h0, h255⟩
  | cons c rest ih =>
    intro st ws ch hnd h0 h255
    obtain ⟨hcr, hndr⟩ := List.nodup_cons.mp hnd
    rw [stepLoop]
    cases henv : env c with
    | error e => exact ⟨by simp, h0, h255⟩
    | ok raw =>
      simp only []
      by_cases hceq : c = ch
      · subst hceq
        split
        · split <;> split <;>
            (refine ⟨?_, ?_, ?_⟩ <;>
              (rw [(stepLoop_notmem alpha env targets rest _ _ c hcr).1]
               simp only [wiper_setWiper_self, wiper_setFiltered]
               omega))
        · refine ⟨?_, ?_, ?_⟩ <;>
            (rw [(stepLoop_notmem alpha env targets rest _ _ c hcr).1, wiper_setFiltered]
             omega)
      · have hpres : ∀ (v : ℚ) (w : Int),
            ((st.setFiltered c v).setWiper c w).wiper ch = st.wiper ch := by
          intro v w
          rw [wiper_setWiper_ne _ _ _ _ hceq, wiper_setFiltered]
        have key : ∀ (ST : VCState) (WS : List (Nat × Int)), ST.wiper ch = st.wiper ch →
            ((stepLoop alpha env targets rest ST WS).1.wiper ch - st.wiper ch).natAbs ≤ 1 ∧
            0 ≤ (stepLoop alpha env targets rest ST WS).1.wiper ch ∧
            (stepLoop alpha env targets rest ST WS).1.wiper ch ≤ 255 := by
          intro ST WS hW
          obtain ⟨b1, b2, b3⟩ := ih ST WS ch hndr (by rw [hW]; exact h0) (by rw [hW]; exact h255)
          rw [hW] at b1
          exact ⟨b1, b2, b3⟩
        split
        · split <;> split <;>
            first
              | exact key _ _ (hpres _ _)
              | exact key _ _ (wiper_setFiltered st c ch _)
        · exact key _ _ (wiper_setFiltered st c ch _)

theorem pyAbs_eq_abs (q : ℚ) : pyAbs q = |q| := by
  unfold pyAbs
  split
  · exact (abs_of_neg (by assumption)).symm
  · exact (abs_of_nonneg (not_lt.mp (by assumption))).symm

theorem calibrate_channel_degenerate (st : CalState) (ch : Channel) (raw : Int)
    (v0 v1 : ℚ) : calibrate_channel st ch raw v0 raw v1
      = (st, some "Calibration error: identical raw counts.") := by
  unfold calibrate_channel
  simp

theorem calibrate_channel_ok (st : CalState) (ch : Channel) (raw0 : Int) (v0 : ℚ)
    (raw1 : Int) (v1 : ℚ) (hne : raw0 ≠ raw1) :
    calibrate_channel st ch raw0 v0 raw1 v1
      = ({ mem := st.mem.set ch (calibFit raw0 v0 raw1 v1),
           disk := st.mem.set ch (calibFit raw0 v0 raw1 v1) }, none) := by
  unfold calibrate_channel calibFit
  by_cases hlt : raw1 < raw0
  · simp only [if_pos hlt]
    rw [if_neg (by omega)]
  · simp only [if_neg hlt]
    rw [if_neg (by omega)]

/-- C1: the regulation tick has no notion of a per-rail manual mode: with the
calibrating flag clear it regulates every rail in the targets dict.  At the
concrete failing input (rail adjustable externally in manual mode, alpha 1,
calibrated ADC reading 5 V, target 3.3 V, wiper 100) one tick changes the
manual rail filtered estimate and wiper and issues a potentiometer write,
while a tick with the calibrating flag set skips every rail. -/
theorem C1_manual_mode_not_honoured :
    ((voltage_control_step 1 (envConst 5) (fun _ => 33 / 10) [.fixed, .adjustable]
        vc100 false).1.wiperAdj = 101 ∧
      (voltage_control_step 1 (envConst 5) (fun _ => 33 / 10) [.fixed, .adjustable]
        vc100 false).1.filteredAdj = 5 ∧
      (voltage_control_step 1 (envConst 5) (fun _ => 33 / 10) [.fixed, .adjustable]
        vc100 false).2.1 = [(1, 101), (0, 101)]) ∧
    (∀ (alpha : ℚ) (env : Channel → Except String ℚ) (targets : Channel → ℚ)
      (chans : List Channel) (st : VCState),
      voltage_control_step alpha env targets chans st true = (st, [], none)) := by
  refine ⟨⟨?_, ?_, ?_⟩, fun _ _ _ _ _ => rfl⟩ <;>
    (norm_num [voltage_control_step, stepLoop, envConst, vc100, vc255, pyAbs, VCState.filtered,
      VCState.setFiltered, VCState.wiper, VCState.setWiper] <;> decide)

/-- C4 counterexample: with the fixed-rail ADC read failing and the adjustable
rail healthy, one regulation tick leaves the adjustable rail completely
unprocessed (state unchanged, no potentiometer write); the second conjunct
shows the adjustable rail would have been adjusted in that same tick had the
fixed read not failed. -/
theorem C4_error_skips_other_rail_counterexample :
    voltage_control_step 1 envFixedFails (fun _ => 33 / 10) [.fixed, .adjustable]
      vc100 false = (vc100, [], some "ADC read failed") ∧
    (voltage_control_step 1 (envConst 5) (fun _ => 33 / 10) [.fixed, .adjustable]
      vc100 false).1.wiperAdj = 101 := by
  constructor
  · decide
  · norm_num [voltage_control_step, stepLoop, envConst, vc100, vc255, pyAbs, VCState.filtered,
      VCState.setFiltered, VCState.wiper, VCState.setWiper]

/-- C4 amended: an exception while processing a rail aborts the remainder of
that regulation tick.  When the first rail in the iteration order fails, the
tick returns with the state exactly as it was, no potentiometer write, and
the error reported to the surrounding loop (which catches it); every rail
after the failing one is left unprocessed in that tick. -/
theorem C4_error_aborts_tick (alpha : ℚ) (env : Channel → Except String ℚ)
    (targets : Channel → ℚ) (ch : Channel) (rest : List Channel) (st : VCState)
    (e : String) (h : env ch = .error e) :
    voltage_control_step alpha env targets (ch :: rest) st false = (st, [], some e) := by
  show stepLoop alpha env targets (ch :: rest) st [] = (st, [], some e)
  rw [stepLoop, h]

theorem C4_error_aborts_tick_witness :
    voltage_control_step 1 envFixedFails (fun _ => 33 / 10) [.fixed, .adjustable]
      vc100 false = (vc100, [], some "ADC read failed") :=
  C4_error_aborts_tick 1 envFixedFails (fun _ => 33 / 10) .fixed [.adjustable] vc100
    "ADC read failed" rfl

/-- C5 counterexample: with the wiper already at 255 and the filtered voltage
a full volt above target (far beyond the 0.009 V dead-band), the tick leaves
the wiper unchanged because the +1 step is clamped at 255, contradicting the
claim that the wiper moves by exactly plus or minus one whenever the
dead-band is exceeded. -/
theorem C5_clamp_counterexample :
    (voltage_control_step 1 (envConst 1) (fun _ => 0) [.fixed] vc255 false).1.wiperFixed
      = 255 ∧
    (voltage_control_step 1 (envConst 1) (fun _ => 0) [.fixed] vc255 false).2.1 = [] ∧
    pyAbs ((1 : ℚ) * 1 + (1 - 1) * vc255.filteredFixed - 0) ≥ 9 / 1000 := by
  refine ⟨?_, ?_, ?_⟩ <;>
    norm_num [voltage_control_step, stepLoop, envConst, vc100, vc255, pyAbs, VCState.filtered,
      VCState.setFiltered, VCState.wiper, VCState.setWiper]

/-- C5 amended: one regulation tick changes each rail wiper by at most 1 and
keeps it inside [0, 255]; when every ADC read succeeds, the new wiper value
of a rail is exactly the dead-band-and-clamp formula railWiperAfter: the
wiper is unchanged when the filtered deviation is below 0.009 V, and
otherwise moves by exactly plus or minus one toward the target except when
the step is clamped at the interval boundary. -/
theorem C5_step_bound :
    (∀ (alpha : ℚ) (env : Channel → Except String ℚ) (targets : Channel → ℚ)
      (chans : List Channel) (st : VCState) (ch : Channel), chans.Nodup →
      0 ≤ st.wiper ch → st.wiper ch ≤ 255 →
      (((voltage_control_step alpha env targets chans st false).1.wiper ch
        - st.wiper ch).natAbs ≤ 1 ∧
       0 ≤ (voltage_control_step alpha env targets chans st false).1.wiper ch ∧
       (voltage_control_step alpha env targets chans st false).1.wiper ch ≤ 255)) ∧
    (∀ (alpha : ℚ) (env : Channel → Except String ℚ) (targets : Channel → ℚ)
      (chans : List Channel) (st : VCState) (ch : Channel) (raw : ℚ),
      (∀ c, ∃ q, env c = .ok q) → chans.Nodup → ch ∈ chans → env ch = .ok raw →
      (voltage_control_step alpha env targets chans st false).1.wiper ch
        = railWiperAfter alpha raw (targets ch) (st.filtered ch) (st.wiper ch)) ∧
    (∀ (alpha raw tgt fprev : ℚ) (w : Int),
      (pyAbs (alpha * raw + (1 - alpha) * fprev - tgt) < 9 / 1000 →
        railWiperAfter alpha raw tgt fprev w = w) ∧
      (pyAbs (alpha * raw + (1 - alpha) * fprev - tgt) ≥ 9 / 1000 →
        railWiperAfter alpha raw tgt fprev w = max 0 (min 255 (w +
          (if alpha * raw + (1 - alpha) * fprev - tgt > 0 then 1 else -1))))) := by
  refine ⟨?_, ?_, ?_⟩
  · intro alpha env targets chans st ch hnd h0 h255
    exact stepLoop_wiper_bound alpha env targets chans st [] ch hnd h0 h255
  · intro alpha env targets chans st ch raw hok hnd hmem henv
    exact stepLoop_mem alpha env targets hok chans st [] ch raw hnd hmem henv
  · intro alpha raw tgt fprev w
    constructor
    · intro h
      rw [railWiperAfter, if_neg (by exact fun hc => absurd h (not_lt.mpr hc))]
    · intro h
      rw [railWiperAfter, if_pos h]

theorem C5_step_bound_witness :
    ((((voltage_control_step 1 (envConst 5) (fun _ => 33 / 10) [.fixed, .adjustable]
        vc100 false).1.wiper .adjustable - vc100.wiper .adjustable).natAbs ≤ 1 ∧
      0 ≤ (voltage_control_step 1 (envConst 5) (fun _ => 33 / 10) [.fixed, .adjustable]
        vc100 false).1.wiper .adjustable ∧
      (voltage_control_step 1 (envConst 5) (fun _ => 33 / 10) [.fixed, .adjustable]
        vc100 false).1.wiper .adjustable ≤ 255) ∧
     (voltage_control_step 1 (envConst 5) (fun _ => 33 / 10) [.fixed, .adjustable]
        vc100 false).1.wiper .adjustable
       = railWiperAfter 1 5 (33 / 10) (vc100.filtered .adjustable)
           (vc100.wiper .adjustable)) :=
  ⟨C5_step_bound.1 1 (envConst 5) (fun _ => 33 / 10) [.fixed, .adjustable] vc100
      .adjustable (by decide) (by decide) (by decide),
   C5_step_bound.2.1 1 (envConst 5) (fun _ => 33 / 10) [.fixed, .adjustable] vc100
      .adjustable 5 (fun c => ⟨5, rfl⟩) (by decide) (by decide) rfl⟩

/-- C6: a calibration run with distinct settled raw counts succeeds, stores
for the rail the pair obtained by ordering the two endpoint pairs by
ascending raw count and fitting slope = (vHigh - vLow)/(rawHigh - rawLow),
intercept = vLow - slope*rawLow, persists it (disk copy equals memory), and a
subsequent voltage read at raw count c returns slope*c + intercept; at the
documented example the stored slope is (9 - 0.5)/(50000 - 1000) and the read
at raw count 25500 returns 0.5 + slope*(25500 - 1000). -/
theorem C6_calibration_fit :
    (∀ (st : CalState) (ch : Channel) (raw0 : Int) (v0 : ℚ) (raw1 : Int) (v1 : ℚ),
      raw0 ≠ raw1 →
      (calibrate_channel st ch raw0 v0 raw1 v1).2 = none ∧
      (calibrate_channel st ch raw0 v0 raw1 v1).1.mem.get ch = calibFit raw0 v0 raw1 v1 ∧
      (calibrate_channel st ch raw0 v0 raw1 v1).1.disk
        = (calibrate_channel st ch raw0 v0 raw1 v1).1.mem ∧
      (∀ c : ℚ, read_voltage_at (calibrate_channel st ch raw0 v0 raw1 v1).1.mem ch c
        = (calibFit raw0 v0 raw1 v1).1 * c + (calibFit raw0 v0 raw1 v1).2)) ∧
    ((calibFit 1000 (1 / 2) 50000 9).1 = (9 - 1 / 2) / (50000 - 1000) ∧
      read_voltage_at (calibrate_channel calState0 .adjustable 1000 (1 / 2) 50000 9).1.mem
        .adjustable 25500 = 1 / 2 + (9 - 1 / 2) / (50000 - 1000) * (25500 - 1000)) := by
  constructor
  · intro st ch raw0 v0 raw1 v1 hne
    rw [calibrate_channel_ok st ch raw0 v0 raw1 v1 hne]
    refine ⟨rfl, ?_, rfl, ?_⟩
    · cases ch <;> rfl
    · intro c
      cases ch <;> rfl
  · constructor
    · norm_num [calibFit]
    · norm_num [calibrate_channel, calibFit, read_voltage_at, Calibration.get,
        Calibration.set, calState0, defaultCalibration]

theorem C6_calibration_fit_witness :
    (calibrate_channel calState0 .adjustable 1000 (1 / 2) 50000 9).2 = none ∧
    (calibrate_channel calState0 .adjustable 1000 (1 / 2) 50000 9).1.mem.get .adjustable
      = calibFit 1000 (1 / 2) 50000 9 :=
  ⟨(C6_calibration_fit.1 calState0 .adjustable 1000 (1 / 2) 50000 9 (by decide)).1,
   (C6_calibration_fit.1 calState0 .adjustable 1000 (1 / 2) 50000 9 (by decide)).2.1⟩

/-- C7: when the two settled raw counts are equal, calibrate_channel fails
with the identical-raw-counts ValueError and returns the calibration store,
both the in-memory record and the persisted copy, exactly unchanged. -/
theorem C7_degenerate_calibration (st : CalState) (ch : Channel) (raw : Int)
    (v0 v1 : ℚ) : calibrate_channel st ch raw v0 raw v1
      = (st, some "Calibration error: identical raw counts.") :=
  calibrate_channel_degenerate st ch raw v0 v1

/-- C10: when the calibration run inside command_calibrate raises (equal
settled raw counts), the handler returns with the global calibrating flag
still set; every regulation tick executed while the flag is set returns
immediately with no state change and no potentiometer write; only a later
command_calibrate whose run completes without error clears the flag. -/
theorem C10_calibrating_flag_stuck :
    (∀ (sys : SysState) (ch : Channel) (raw : Int) (v0 v1 : ℚ),
      (command_calibrate sys ch raw v0 raw v1).1.calibrating = true ∧
      (command_calibrate sys ch raw v0 raw v1).2
        = some "Calibration error: identical raw counts.") ∧
    (∀ (alpha : ℚ) (env : Channel → Except String ℚ) (targets : Channel → ℚ)
      (chans : List Channel) (st : VCState),
      voltage_control_step alpha env targets chans st true = (st, [], none)) ∧
    (∀ (sys : SysState) (ch : Channel) (raw0 : Int) (v0 : ℚ) (raw1 : Int) (v1 : ℚ),
      raw0 ≠ raw1 → (command_calibrate sys ch raw0 v0 raw1 v1).1.calibrating = false) := by
  refine ⟨?_, fun _ _ _ _ _ => rfl, ?_⟩
  · intro sys ch raw v0 v1
    simp only [command_calibrate]
    rw [calibrate_channel_degenerate]
    exact ⟨rfl, rfl⟩
  · intro sys ch raw0 v0 raw1 v1 hne
    simp only [command_calibrate]
    rw [calibrate_channel_ok _ _ _ _ _ _ hne]

theorem C10_calibrating_flag_stuck_witness :
    ((command_calibrate ⟨calState0, false⟩ .adjustable 700 (1 / 2) 700 9).1.calibrating
        = true ∧
      (command_calibrate ⟨calState0, false⟩ .adjustable 700 (1 / 2) 700 9).2
        = some "Calibration error: identical raw counts.") ∧
    (command_calibrate ⟨calState0, true⟩ .adjustable 1000 (1 / 2) 50000 9).1.calibrating
      = false :=
  ⟨C10_calibrating_flag_stuck.1 ⟨calState0, false⟩ .adjustable 700 (1 / 2) 9,
   C10_calibrating_flag_stuck.2.2 ⟨calState0, true⟩ .adjustable 1000 (1 / 2) 50000 9
     (by decide)⟩

end RadioAntenna
